import Mathlib

/-!
Formal model of the KanjiComposer stroke-graph engine.

The repository manipulates SVG text through the browser DOM
(`DOMParser` / `XMLSerializer`).  We model DOM documents as a small
inductive tree `XNode` of elements and text nodes, with an executable
XML parser and serializer standing in for the browser primitives
(entities, comments, doctypes and processing instructions are not
modelled; a string the modelled parser rejects corresponds to a parse
failure / error document in the browser).  Network fetches are
modelled by an explicit oracle `String → Nat → Option String` mapping
(url, timeoutMs) to a response body (`none` = network error, non-OK
response or timeout).  All definitions are translated from the
TypeScript sources `src/unnamed/part_000` and `src/src/lib/rangeStroke.ts`.
-/

/-- A DOM node: an element with tag, attributes and children, or a text node. -/
inductive XNode where
  | elem (tag : String) (attrs : List (String × String)) (children : List XNode)
  | text (s : String)
deriving Repr

/-! ### Attribute lists -/

def getAttrL (attrs : List (String × String)) (k : String) : Option String :=
  match attrs.find? (fun p => p.1 == k) with
  | some p => some p.2
  | none => none

def hasAttrL (attrs : List (String × String)) (k : String) : Bool :=
  (getAttrL attrs k).isSome

/-- `setAttribute`: replace the value in place if present, else append. -/
def setAttrL : List (String × String) → String → String → List (String × String)
  | [], k, v => [(k, v)]
  | (k0, v0) :: rest, k, v =>
    if k0 = k then (k0, v) :: rest else (k0, v0) :: setAttrL rest k v

/-- `removeAttribute`. -/
def removeAttrL (attrs : List (String × String)) (k : String) : List (String × String) :=
  attrs.filter (fun p => p.1 != k)

def XNode.tag : XNode → String
  | .elem t _ _ => t
  | .text _ => ""

def XNode.attrsOf : XNode → List (String × String)
  | .elem _ a _ => a
  | .text _ => []

def XNode.childrenOf : XNode → List XNode
  | .elem _ _ cs => cs
  | .text _ => []

def XNode.isElem : XNode → Bool
  | .elem _ _ _ => true
  | .text _ => false

def XNode.getAttr (n : XNode) (k : String) : Option String :=
  getAttrL n.attrsOf k

def XNode.setAttr : XNode → String → String → XNode
  | .elem t a cs, k, v => .elem t (setAttrL a k v) cs
  | .text s, _, _ => .text s

def XNode.removeAttr : XNode → String → XNode
  | .elem t a cs, k => .elem t (removeAttrL a k) cs
  | .text s, _ => .text s

/-! ### Tree traversals -/

mutual
/-- All elements of a subtree in document (preorder) order, including the root. -/
def elemsOf : XNode → List XNode
  | .text _ => []
  | .elem t a cs => .elem t a cs :: elemsList cs
def elemsList : List XNode → List XNode
  | [] => []
  | c :: cs => elemsOf c ++ elemsList cs
end

/-- `querySelector`-style search: first element (document order) satisfying `p`. -/
def findFirst (p : XNode → Bool) (t : XNode) : Option XNode :=
  (elemsOf t).find? p

def containsElem (p : XNode → Bool) (t : XNode) : Bool :=
  (findFirst p t).isSome

mutual
/-- Rewrite every element's attribute list with `f` (given its tag). -/
def mapAttrs (f : String → List (String × String) → List (String × String)) : XNode → XNode
  | .text s => .text s
  | .elem t a cs => .elem t (f t a) (mapAttrsList f cs)
def mapAttrsList (f : String → List (String × String) → List (String × String)) :
    List XNode → List XNode
  | [] => []
  | c :: cs => mapAttrs f c :: mapAttrsList f cs
end

mutual
/-- `node.remove()` applied to every element satisfying `p` (with its subtree);
`none` when the root itself is removed. -/
def removeAll (p : XNode → Bool) : XNode → Option XNode
  | .text s => some (.text s)
  | .elem t a cs =>
    if p (.elem t a cs) then none else some (.elem t a (removeAllList p cs))
def removeAllList (p : XNode → Bool) : List XNode → List XNode
  | [] => []
  | c :: cs =>
    match removeAll p c with
    | some c2 => c2 :: removeAllList p cs
    | none => removeAllList p cs
end

mutual
/-- Rewrite the first element (document order) satisfying `p` with `f`;
the boolean reports whether a match was found. -/
def rewriteFirst (p : XNode → Bool) (f : XNode → XNode) : XNode → XNode × Bool
  | .text s => (.text s, false)
  | .elem t a cs =>
    if p (.elem t a cs) then (f (.elem t a cs), true)
    else
      let r := rewriteFirstList p f cs
      (.elem t a r.1, r.2)
def rewriteFirstList (p : XNode → Bool) (f : XNode → XNode) : List XNode → List XNode × Bool
  | [] => ([], false)
  | c :: cs =>
    let r := rewriteFirst p f c
    if r.2 then (r.1 :: cs, true)
    else
      let rs := rewriteFirstList p f cs
      (r.1 :: rs.1, rs.2)
end

def rewriteFirstN (p : XNode → Bool) (f : XNode → XNode) (t : XNode) : XNode :=
  (rewriteFirst p f t).1

/-! ### XML parser and serializer (model of DOMParser / XMLSerializer) -/

def isXmlWs (c : Char) : Bool :=
  c = ' ' || c = '\n' || c = '\t' || c = '\r'

def skipWs : List Char → List Char
  | [] => []
  | c :: cs => if isXmlWs c then skipWs cs else c :: cs

def isNameChar (c : Char) : Bool :=
  c.isAlphanum || c = ':' || c = '-' || c = '_' || c = '.'

def parseName (cs : List Char) : Option (String × List Char) :=
  let r := cs.span isNameChar
  if r.1.isEmpty then none else some (r.1.asString, r.2)

def parseAttrList : Nat → List Char → Option (List (String × String) × List Char)
  | 0, _ => none
  | fuel + 1, cs0 =>
    let cs := skipWs cs0
    match cs with
    | '>' :: _ => some ([], cs)
    | '/' :: _ => some ([], cs)
    | _ =>
      match parseName cs with
      | none => none
      | some (k, cs1) =>
        match skipWs cs1 with
        | '=' :: cs2 =>
          match skipWs cs2 with
          | '"' :: cs3 =>
            let r := cs3.span (fun c => c != '"' && c != '<')
            match r.2 with
            | '"' :: cs5 =>
              match parseAttrList fuel cs5 with
              | some (rest, cs6) => some ((k, r.1.asString) :: rest, cs6)
              | none => none
            | _ => none
          | _ => none
        | _ => none

mutual
def parseNodes : Nat → List Char → Option (List XNode × List Char)
  | 0, _ => none
  | fuel + 1, cs =>
    match cs with
    | [] => some ([], [])
    | '<' :: '/' :: _ => some ([], cs)
    | '<' :: _ =>
      match parseElement fuel cs with
      | none => none
      | some (n, cs1) =>
        match parseNodes fuel cs1 with
        | some (ns, cs2) => some (n :: ns, cs2)
        | none => none
    | _ =>
      let r := cs.span (fun c => c != '<')
      match parseNodes fuel r.2 with
      | some (ns, cs2) => some (XNode.text r.1.asString :: ns, cs2)
      | none => none
def parseElement : Nat → List Char → Option (XNode × List Char)
  | 0, _ => none
  | fuel + 1, cs =>
    match cs with
    | '<' :: cs1 =>
      match parseName cs1 with
      | none => none
      | some (tag, cs2) =>
        match parseAttrList (cs2.length + 1) cs2 with
        | none => none
        | some (attrs, cs3) =>
          match cs3 with
          | '/' :: '>' :: cs4 => some (XNode.elem tag attrs [], cs4)
          | '>' :: cs4 =>
            match parseNodes fuel cs4 with
            | none => none
            | some (children, cs5) =>
              match cs5 with
              | '<' :: '/' :: cs6 =>
                match parseName cs6 with
                | some (tag2, cs7) =>
                  if tag2 = tag then
                    match cs7 with
                    | '>' :: cs8 => some (XNode.elem tag attrs children, cs8)
                    | _ => none
                  else none
                | none => none
              | _ => none
          | _ => none
    | _ => none
end

/-- Model of `new DOMParser().parseFromString(s, "image/svg+xml")`;
`none` corresponds to the browser's error document. -/
def parseXml (s : String) : Option XNode :=
  let cs := skipWs s.data
  match parseElement (2 * s.length + 2) cs with
  | some (n, rest) => if (skipWs rest).isEmpty then some n else none
  | none => none

def serAttrs : List (String × String) → String
  | [] => ""
  | (k, v) :: rest => " " ++ k ++ "=\"" ++ v ++ "\"" ++ serAttrs rest

mutual
/-- Model of `new XMLSerializer().serializeToString(doc)`. -/
def serializeXml : XNode → String
  | .text s => s
  | .elem t a cs =>
    match cs with
    | [] => "<" ++ t ++ serAttrs a ++ "/>"
    | _ => "<" ++ t ++ serAttrs a ++ ">" ++ serializeList cs ++ "</" ++ t ++ ">"
def serializeList : List XNode → String
  | [] => ""
  | c :: cs => serializeXml c ++ serializeList cs
end

/-! ### JavaScript value helpers (truthiness, `||`, `parseInt`) -/

def jsOrStr (a b : String) : String := if a = "" then b else a

def jsTruthy : Option String → Bool
  | none => false
  | some s => s != ""

/-- JS `a || b` on possibly-null strings (`""` and `null` are falsy). -/
def jsOrO (a b : Option String) : Option String := if jsTruthy a then a else b

def jsOrNat (a b : Nat) : Nat := if a = 0 then b else a

def jsOrInt (a b : Int) : Int := if a = 0 then b else a

def digitsVal (ds : List Char) : Nat :=
  ds.foldl (fun acc c => acc * 10 + (c.toNat - 48)) 0

/-- JS `parseInt(s, 10)`: leading whitespace, optional sign, a decimal digit
run; `none` models `NaN`. -/
def parseIntJs (s : String) : Option Int :=
  match skipWs s.data with
  | '-' :: rest =>
    let r := rest.span Char.isDigit
    if r.1.isEmpty then none else some (-(digitsVal r.1 : Int))
  | '+' :: rest =>
    let r := rest.span Char.isDigit
    if r.1.isEmpty then none else some ((digitsVal r.1 : Int))
  | cs =>
    let r := cs.span Char.isDigit
    if r.1.isEmpty then none else some ((digitsVal r.1 : Int))

/-- The stroke-carrier id pattern of `bakeStrokes` / `annotateStrokes`:
the regex pattern `-s(\d+)$` (id ends in a dash, the letter s, then
digits); returns the digit group. -/
def matchStrokeSuffix (id : String) : Option String :=
  let r := id.data.reverse.span Char.isDigit
  match r.1, r.2 with
  | [], _ => none
  | ds, 's' :: '-' :: _ => some (ds.reverse.asString)
  | _, _ => none

def matchStrokeSuffixNat (id : String) : Option Nat :=
  (matchStrokeSuffix id).map (fun d => digitsVal d.data)

/-- The id pattern of `countStrokes` in `rangeStroke.ts` is written with
the regex source text `-s(\\d+)$`: inside a regex literal `\\` matches one literal backslash,
so the pattern is a dash, the letter s, a backslash, then one or more
letters d; the captured group starts with the backslash. -/
def matchStrokeSuffixBroken (id : String) : Option String :=
  let r := id.data.reverse.span (fun c => c = 'd')
  match r.1, r.2 with
  | [], _ => none
  | ds, '\\' :: 's' :: '-' :: _ => some (('\\' :: ds).asString)
  | _, _ => none

/-! ### Shared id predicates and SVG-root normalization -/

def DRAW_TAGS : List String :=
  ["path", "polyline", "line", "circle", "ellipse", "rect", "polygon"]

/-- `toLowerCase()` over the characters (the standard library lowercase). -/
def strToLower (s : String) : String := String.mk (s.data.map Char.toLower)

def isDrawTag (t : String) : Bool := DRAW_TAGS.contains (strToLower t)

/-- The decoration selector of `bakeStrokes` / `annotateStrokes`. -/
def noiseIdStarts : List String :=
  ["kvg:StrokeNumbers_", "kvg:Numbers_", "kvg:Grid_", "kvg:Guideline_"]

def isNoise (n : XNode) : Bool :=
  match n.getAttr "id" with
  | some id => noiseIdStarts.any (fun p => id.startsWith p)
  | none => false

def isSvg (n : XNode) : Bool := n.tag == "svg"

def isStrokeNumbers (n : XNode) : Bool :=
  match n.getAttr "id" with
  | some id => id.startsWith "kvg:StrokeNumbers_"
  | none => false

def isStrokePaths (n : XNode) : Bool :=
  match n.getAttr "id" with
  | some id => id.startsWith "kvg:StrokePaths_"
  | none => false

/-- The normalization block shared verbatim by `bakeStrokes` and
`annotateStrokes`: clear fixed width/height, 100% sizing, default
viewBox, resolution-independent strokes, uniform aspect fit. -/
def normalizeSvgRoot (n : XNode) : XNode :=
  let n1 := (n.removeAttr "width").removeAttr "height"
  let n2 := (n1.setAttr "width" "100%").setAttr "height" "100%"
  let n3 := n2.setAttr "viewBox" (jsOrStr ((n2.getAttr "viewBox").getD "") "0 0 109 109")
  let n4 := n3.setAttr "vector-effect" "non-scaling-stroke"
  n4.setAttr "preserveAspectRatio" "xMidYMid meet"

/-! ### forceStrokeColor -/

/-- The injected style rule of `forceStrokeColor` (template literal). -/
def strokeStyleText (color : String) : String :=
  "\n      path, line, polyline \x7b\n        stroke: " ++ color ++
  " !important;\n        stroke-width: 3 !important;\n        stroke-linecap: round !important;\n        stroke-linejoin: round !important;\n        fill: none !important;\n        vector-effect: non-scaling-stroke;\n      \x7d\n    "

/-- The per-element `setAttribute` sequence of `forceStrokeColor`. -/
def forceDrawAttrs (color : String) (a : List (String × String)) : List (String × String) :=
  setAttrL (setAttrL (setAttrL (setAttrL (setAttrL (setAttrL a
    "stroke" color) "stroke-width" "3") "stroke-linecap" "round")
    "stroke-linejoin" "round") "fill" "none") "vector-effect" "non-scaling-stroke"

def insertFirstChild (c : XNode) : XNode → XNode
  | .elem t a cs => .elem t a (c :: cs)
  | .text s => .text s

/-- `forceStrokeColor` (part_000 lines 2-36): inject a style rule as the
svg's first child and hard-set stroke attributes on every drawable;
on parse failure or a missing svg root, return the input unchanged. -/
def forceStrokeColor (svgText : String) (color : String := "#fff") : String :=
  match parseXml svgText with
  | none => svgText
  | some doc =>
    if !containsElem isSvg doc then svgText
    else
      let style := XNode.elem "style" [] [XNode.text (strokeStyleText color)]
      let doc1 := rewriteFirstN isSvg (insertFirstChild style) doc
      let doc2 := mapAttrs (fun tag a =>
        if tag = "path" || tag = "polyline" || tag = "line" then forceDrawAttrs color a else a) doc1
      serializeXml doc2

/-! ### hideStrokeNumbers and annotateStrokes -/

/-- `hideStrokeNumbers`: remove every stroke-number group.  A parse
failure is modelled as returning the input (the browser would
serialize its error document instead). -/
def hideStrokeNumbers (svgText : String) : String :=
  match parseXml svgText with
  | none => svgText
  | some doc =>
    match removeAll isStrokeNumbers doc with
    | some d2 => serializeXml d2
    | none => ""

mutual
/-- The tagging pass of `annotateStrokes`: each drawable leaf gets
`data-stroke` from the nearest self-or-ancestor id with a stroke
suffix (`findStrokeIndex` walks upward; the accumulator `inh` carries
the nearest enclosing match), else `data-ignore=1`.  The walk's
`tagName !== "SVG"` stop condition never fires in an XML document
(tag names keep their case), so the walk runs to the root. -/
def annotateWalk (inh : Option String) : XNode → XNode
  | .text s => .text s
  | .elem t a cs =>
    let here := match getAttrL a "id" with
      | some id => matchStrokeSuffix id
      | none => none
    let cur := match here with
      | some m => some m
      | none => inh
    let a2 :=
      if t = "path" || t = "polyline" || t = "line" then
        match cur with
        | some idx => setAttrL a "data-stroke" idx
        | none => setAttrL a "data-ignore" "1"
      else a
    .elem t a2 (annotateWalkList cur cs)
def annotateWalkList (inh : Option String) : List XNode → List XNode
  | [] => []
  | c :: cs => annotateWalk inh c :: annotateWalkList inh cs
end

/-- `annotateStrokes` (part_000 lines 399-448): strip decoration, tag
drawable leaves with their owning stroke index, normalize the root. -/
def annotateStrokes (svgText : String) : String :=
  match parseXml svgText with
  | none => svgText
  | some d0 =>
    match removeAll isNoise d0 with
    | none => ""
    | some d1 =>
      let d2 := annotateWalk none d1
      let d3 := if containsElem isSvg d2 then rewriteFirstN isSvg normalizeSvgRoot d2 else d2
      serializeXml d3

/-! ### applyTransform -/

def jsOrQ (a b : ℚ) : ℚ := if a = 0 then b else a

def ratStr (q : ℚ) : String := toString q

/-- Move the svg's element children (except style/defs) into one new
transform group appended at the end; text children stay in place. -/
def transformWrap (tstr : String) (n : XNode) : XNode :=
  match n with
  | .elem t a cs =>
    let keep := fun (c : XNode) => !c.isElem || strToLower c.tag == "style" || strToLower c.tag == "defs"
    let kept := cs.filter keep
    let moved := cs.filter (fun c => !keep c)
    .elem t a (kept ++ [XNode.elem "g" [("transform", tstr)] moved])
  | .text s => .text s

/-- `applyTransform` (part_000 lines 488-511): wrap root-level drawable
children in a translate-then-scale group; on parse failure or missing
svg root, return the input unchanged. -/
def applyTransform (svgText : String) (x y sx sy : ℚ) : String :=
  match parseXml svgText with
  | none => svgText
  | some doc =>
    if !containsElem isSvg doc then svgText
    else
      let tstr := "translate(" ++ ratStr (jsOrQ x 0) ++ "," ++ ratStr (jsOrQ y 0) ++
        ") scale(" ++ ratStr (jsOrQ sx 1) ++ "," ++ ratStr (jsOrQ sy 1) ++ ")"
      serializeXml (rewriteFirstN isSvg (transformWrap tstr) doc)

/-! ### composite and compositeAlpha -/

def firstSvg (t : XNode) : Option XNode := findFirst isSvg t

def elemChildren (n : XNode) : List XNode := n.childrenOf.filter XNode.isElem

def appendElemChildren (extra : List XNode) (n : XNode) : XNode :=
  match n with
  | .elem t a cs => .elem t a (cs ++ extra)
  | .text s => .text s

/-- `composite` (part_000 lines 512-522): identity short-circuit on equal
inputs, else append deep clones of B's root element children to A's root. -/
def composite (svgA svgB : String) : String :=
  if svgA = svgB then svgA
  else
    match parseXml svgA, parseXml svgB with
    | some a, some b =>
      match firstSvg a, firstSvg b with
      | some _, some inb =>
        serializeXml (rewriteFirstN isSvg (appendElemChildren (elemChildren inb)) a)
      | _, _ => svgA
    | _, _ => svgA

def clamp01 (v : ℚ) : ℚ := max 0 (min 1 v)

def setChildrenOf (cs : List XNode) (n : XNode) : XNode :=
  match n with
  | .elem t a _ => .elem t a cs
  | .text s => .text s

/-- `compositeAlpha` (part_000 lines 524-553): wrap A's element children
and clones of B's element children in opacity groups and make those two
groups A's new root children (text children are dropped by the clearing
loop, which removes every child node). -/
def compositeAlpha (svgA svgB : String) (alphaA : ℚ := 1) (alphaB : ℚ := 1)
    (swap : Bool := false) : String :=
  match parseXml svgA, parseXml svgB with
  | some aDoc, some bDoc =>
    match firstSvg aDoc, firstSvg bDoc with
    | some out, some inb =>
      let gA := XNode.elem "g" [("opacity", ratStr (clamp01 alphaA))] (elemChildren out)
      let gB := XNode.elem "g" [("opacity", ratStr (clamp01 alphaB))] (elemChildren inb)
      let pair := if swap then [gB, gA] else [gA, gB]
      serializeXml (rewriteFirstN isSvg (setChildrenOf pair) aDoc)
    | _, _ => svgA
  | _, _ => svgA

/-! ### bakeStrokes (rangeStroke.ts lines 13-86) -/

structure BakedSvg where
  svg : String
  count : Nat
deriving Repr, DecidableEq

/-- The carrier scan: every element carrying an id that ends in the
stroke suffix, in document order, with its parsed index. -/
def bakeCarriers (t : XNode) : List (Nat × XNode) :=
  (elemsOf t).filterMap (fun e =>
    match e.getAttr "id" with
    | some id => (matchStrokeSuffixNat id).map (fun n => (n, e))
    | none => none)

/-- `pushAllDrawables`: the TreeWalker collects every drawable element of
the carrier's subtree, the carrier itself included, in document order. -/
def drawablesOf (root : XNode) : List XNode :=
  (elemsOf root).filter (fun e => isDrawTag e.tag)

def addBucket : List (Nat × List XNode) → Nat → List XNode → List (Nat × List XNode)
  | [], n, items => [(n, items)]
  | (m, xs) :: rest, n, items =>
    if m = n then (m, xs ++ items) :: rest else (m, xs) :: addBucket rest n items

/-- The `bucket` map: one entry per index in first-insertion order,
clones of all drawables of that index's carriers appended in scan order. -/
def buildBuckets (carriers : List (Nat × XNode)) : List (Nat × List XNode) :=
  carriers.foldl (fun b p => addBucket b p.1 (drawablesOf p.2)) []

def lookupBucket (b : List (Nat × List XNode)) (n : Nat) : List XNode :=
  match b.find? (fun p => p.1 == n) with
  | some p => p.2
  | none => []

/-- Numeric ascending sort of the bucket keys (`sort((a,b)=>a-b)`). -/
def sortNats (l : List Nat) : List Nat := List.insertionSort (· ≤ ·) l

def mkStrokeGroup (n : Nat) (items : List XNode) : XNode :=
  XNode.elem "g" [("data-stroke", toString n)] items

/-- The emission loop: walk the sorted indices; a group with at least one
drawable is appended to the baked group and bumps the count to its index. -/
def emitGroups (b : List (Nat × List XNode)) (nums : List Nat) : List XNode × Nat :=
  nums.foldl (fun acc n =>
    let w := lookupBucket b n
    if w.isEmpty then acc else (acc.1 ++ [mkStrokeGroup n w], max acc.2 n)) ([], 0)

/-- The body of `bakeStrokes` after noise removal, for a document whose
svg root was found: normalize, scan carriers, bucket drawables, hide the
original StrokePaths group, emit the baked group and the count. -/
def bakeCore (d1 : XNode) : XNode × Nat :=
  let d2 := rewriteFirstN isSvg normalizeSvgRoot d1
  let carriers := bakeCarriers d2
  let bucket := buildBuckets carriers
  let d3 := rewriteFirstN isStrokePaths (fun n => n.setAttr "display" "none") d2
  let nums := sortNats (bucket.map (fun p => p.1))
  let eg := emitGroups bucket nums
  let bakedGroup := XNode.elem "g" [("id", "__baked_strokes__")] eg.1
  (rewriteFirstN isSvg (appendElemChildren [bakedGroup]) d3, jsOrNat eg.2 nums.length)

/-- `bakeStrokes`: returns the input with count 0 when no svg root
survives parsing and noise removal. -/
def bakeStrokes (svgText : String) : BakedSvg :=
  match parseXml svgText with
  | none => ⟨svgText, 0⟩
  | some d0 =>
    match removeAll isNoise d0 with
    | none => ⟨svgText, 0⟩
    | some d1 =>
      if !containsElem isSvg d1 then ⟨svgText, 0⟩
      else
        let r := bakeCore d1
        ⟨serializeXml r.1, r.2⟩

/-! ### applyRangeBaked (rangeStroke.ts lines 89-102) -/

/-- First pass: hide every stroke group (`g[data-stroke]`). -/
def rangePass1 (tag : String) (a : List (String × String)) : List (String × String) :=
  if tag == "g" && hasAttrL a "data-stroke" then setAttrL a "display" "none" else a

/-- Second pass: show the groups whose parsed index lies in [s, e]
(an unparsable index compares false with NaN and stays hidden). -/
def rangePass2 (s e : Int) (tag : String) (a : List (String × String)) : List (String × String) :=
  if tag == "g" && hasAttrL a "data-stroke" then
    match parseIntJs (jsOrStr ((getAttrL a "data-stroke").getD "") "0") with
    | some n => if s ≤ n && n ≤ e then removeAttrL a "display" else a
    | none => a
  else a

/-- The two passes applied below the svg root (`svg.querySelectorAll`). -/
def applyRangeCore (start endv : Int) (doc : XNode) : XNode :=
  let s := min start endv
  let e := max start endv
  rewriteFirstN isSvg (fun svgEl =>
    let cs1 := svgEl.childrenOf.map (mapAttrs rangePass1)
    let cs2 := cs1.map (mapAttrs (rangePass2 s e))
    setChildrenOf cs2 svgEl) doc

/-- `applyRangeBaked`: on parse failure or missing svg root, return the
input unchanged. -/
def applyRangeBaked (svgText : String) (start endv : Int) : String :=
  match parseXml svgText with
  | none => svgText
  | some doc =>
    if !containsElem isSvg doc then svgText
    else serializeXml (applyRangeCore start endv doc)

/-! ### countStrokes (rangeStroke.ts lines 105-121) -/

/-- `Math.max` with NaN propagation (`none` models NaN). -/
def nanMax (a b : Option Int) : Option Int :=
  match a, b with
  | some x, some y => some (max x y)
  | _, _ => none

/-- `countStrokes`: count baked stroke groups; otherwise scan ids with
the (mistyped) suffix pattern, whose captured group always starts with a
backslash and hence always parses to NaN; `max || 1` then yields 1.  A
parse failure takes the catch branch and also yields 1. -/
def countStrokes (svgText : String) : Nat :=
  match parseXml svgText with
  | none => 1
  | some doc =>
    let baked := ((elemsOf doc).filter
      (fun e => e.tag == "g" && hasAttrL e.attrsOf "data-stroke")).length
    if baked > 0 then baked
    else
      let m : Option Int := (elemsOf doc).foldl (fun acc e =>
        match e.getAttr "id" with
        | some id =>
          match matchStrokeSuffixBroken id with
          | some grp => nanMax acc (parseIntJs grp)
          | none => acc
        | none => acc) (some 0)
      match m with
      | none => 1
      | some x => if x ≤ 0 then 1 else x.toNat

/-! ### GlyphSource: code5, tryFetch, fetchKanjiVGSvg (part_000 lines 307-359)

A character is modelled as its list of Unicode code points
(`codePointAt(0)` is the head).  The network is an oracle
`(url, timeoutMs) ↦ Option body`; `none` covers network errors,
non-OK responses and the 6-second abort. -/

inductive FetchErr where
  | invalidChar
  | notFound
deriving Repr, DecidableEq

/-- `hex.padStart(5, "0")`. -/
def pad5 (hex : String) : String :=
  if 5 ≤ hex.length then hex else String.mk (List.replicate (5 - hex.length) '0') ++ hex

def natToHexAux : Nat → Nat → List Char
  | 0, _ => []
  | fuel + 1, n =>
    if n < 16 then [Nat.digitChar n]
    else natToHexAux fuel (n / 16) ++ [Nat.digitChar (n % 16)]

/-- `cp.toString(16).toLowerCase()` (Nat.digitChar already uses lowercase). -/
def natToHexLower (n : Nat) : String := (natToHexAux (n + 1) n).asString

/-- `code5`: throws "invalid char" exactly when `ch.codePointAt(0)` is
falsy, i.e. the string is empty (undefined) or starts with U+0000. -/
def code5 (ch : List Nat) : Except FetchErr String :=
  match ch.head? with
  | none => .error .invalidChar
  | some cp => if cp = 0 then .error .invalidChar else .ok (pad5 (natToHexLower cp))

def githubSvgUrl (c5 : String) : String :=
  "https://raw.githubusercontent.com/KanjiVG/kanjivg/master/kanji/" ++ c5 ++ ".svg"

def localSvgUrl (c5 : String) : String := "/kanji/" ++ c5 ++ ".svg"

abbrev FetchOracle := String → Nat → Option String

/-- `tryFetch(url, timeoutMs)`: resolves to the body or to null on any
failure (abort timer, network error, non-OK status); never rejects. -/
def tryFetch (oracle : FetchOracle) (url : String) (timeoutMs : Nat := 5000) : Option String :=
  oracle url timeoutMs

/-- JS truthiness filter for a fetched body: `null` and `""` are falsy. -/
def jsTruthyOpt (o : Option String) : Option String :=
  match o with
  | some s => if s = "" then none else some s
  | none => none

def lookupAssoc (cache : List (String × String)) (k : String) : Option String :=
  match cache.find? (fun p => p.1 == k) with
  | some p => some p.2
  | none => none

def setAssoc : List (String × String) → String → String → List (String × String)
  | [], k, v => [(k, v)]
  | (k0, v0) :: rest, k, v => if k0 = k then (k0, v) :: rest else (k0, v0) :: setAssoc rest k v

/-- `fetchKanjiVGSvg` with the module-level `svgCache` passed explicitly:
cache hit returns immediately; on miss try GitHub then the local copy,
each with `timeoutMs = 6000`; a truthy body is cached under the
codepoint id; both failing throws NotFound, leaving the cache unchanged. -/
def fetchKanjiVGSvg (oracle : FetchOracle) (cache : List (String × String)) (ch : List Nat) :
    Except FetchErr String × List (String × String) :=
  match code5 ch with
  | .error e => (.error e, cache)
  | .ok c5 =>
    match lookupAssoc cache c5 with
    | some v => (.ok v, cache)
    | none =>
      match jsTruthyOpt (tryFetch oracle (githubSvgUrl c5) 6000) with
      | some gh => (.ok gh, setAssoc cache c5 gh)
      | none =>
        match jsTruthyOpt (tryFetch oracle (localSvgUrl c5) 6000) with
        | some l => (.ok l, setAssoc cache c5 l)
        | none => (.error .notFound, cache)

/-- The value computed by `fetchKanjiVGSvg` on an empty cache; the caches
only memoize this deterministic value. -/
def fetchKanjiVG (oracle : FetchOracle) (ch : List Nat) : Option String :=
  (fetchKanjiVGSvg oracle [] ch).1.toOption

/-- `getPreparedSvg(char, hide)` (part_000 lines 335-344): fetch, strip
stroke numbers when asked, annotate, force white strokes.  The
`preparedCache` memo only stores this deterministic value and is omitted. -/
def getPreparedSvg (oracle : FetchOracle) (ch : List Nat) (hide : Bool) : Option String :=
  (fetchKanjiVG oracle ch).map (fun raw =>
    forceStrokeColor (annotateStrokes (if hide then hideStrokeNumbers raw else raw)) "#fff")

/-- The worker's `kanji` request (part_000 lines 231-237): same fetch
and annotate pipeline, no stroke-color pass; any thrown error is caught
by the worker's message handler, which then posts a null artifact. -/
def callWorkerKanji (oracle : FetchOracle) (ch : List Nat) (hideNumbers : Bool) : Option String :=
  (fetchKanjiVG oracle ch).map (fun raw =>
    annotateStrokes (if hideNumbers then hideStrokeNumbers raw else raw))

/-! ### The node graph -/

inductive NodeKind where
  | kanji (char : List Nat)
  | range (rstart rend : Int)
  | transform (x y sx sy : ℚ)
  | composite (alphaA alphaB : ℚ) (swap : Bool)
deriving Repr, DecidableEq

structure GraphEdge where
  source : String
  target : String
  targetHandle : Option String
deriving Repr, DecidableEq

structure Graph where
  nodes : List (String × NodeKind)
  edges : List GraphEdge
deriving Repr

/-- `rf.getNode(id)` / `byId[id]`. -/
def lookupNode (g : Graph) (id : String) : Option NodeKind :=
  match g.nodes.find? (fun p => p.1 == id) with
  | some p => some p.2
  | none => none

/-- `ins(id)`: the edges entering a node. -/
def insEdges (g : Graph) (id : String) : List GraphEdge :=
  g.edges.filter (fun e => e.target == id)

/-- `!ed.targetHandle`: an absent or empty handle is falsy. -/
def falsyHandle : Option String → Bool
  | none => true
  | some h => h == ""

/-- The edge search of `evalNodeSvg`'s `getIn`: a named handle must match
exactly; the unnamed input takes the first edge with a falsy handle. -/
def findEdgeSvg (g : Graph) (nodeId : String) (h : Option String) : Option GraphEdge :=
  g.edges.find? (fun e => e.target == nodeId &&
    (match h with
     | some hh => e.targetHandle == some hh
     | none => falsyHandle e.targetHandle))

/-- The edge search of the App pass's `getIn`: a named handle must match;
the unnamed input takes the FIRST incoming edge regardless of handle. -/
def findEdgeApp (inE : List GraphEdge) (h : Option String) : Option GraphEdge :=
  inE.find? (fun e => match h with
    | some hh => e.targetHandle == some hh
    | none => true)

/-- The composite branch shared by both evaluation passes:
`if (a && b) return compositeAlpha(a, b, aa, ab, sw); return a || b;`. -/
def compositeCombine (a b : Option String) (alphaA alphaB : ℚ) (swap : Bool) : Option String :=
  if jsTruthy a && jsTruthy b then
    some (compositeAlpha (a.getD "") (b.getD "") alphaA alphaB swap)
  else jsOrO a b

/-! ### evalNodeSvg (the node-local preview evaluator, part_000 lines 1109-1171)

The evaluator is an async function: a rejected promise (a kanji fetch
that throws, since this pass has no try/catch) is `.error ()`; a null
artifact is `.ok none`.  The recursion increments `depth` and aborts
with null past depth 20; we realize it by structural recursion on the
remaining fuel `21 - depth`, so `fuel = 0` is exactly `depth > 20`.
The per-call promise memo keyed by node id only caches these
deterministic results (each entry is written after the recursive
descent it feeds) and is omitted. -/

def getInSvg (g : Graph) (recur : String → Except Unit (Option String)) (nodeId : String)
    (h : Option String) : Except Unit (Option String) :=
  match findEdgeSvg g nodeId h with
  | none => .ok none
  | some e => recur e.source

def evalSvgStep (oracle : FetchOracle) (g : Graph)
    (recur : String → Except Unit (Option String)) (nodeId : String) :
    Except Unit (Option String) :=
  if nodeId = "" then .ok none
  else
    match lookupNode g nodeId with
    | none => .ok none
    | some (.kanji ch) =>
      if ch = [] then .ok none
      else
        match getPreparedSvg oracle ch true with
        | some s => .ok (some s)
        | none => .error ()
    | some (.range s0 e0) =>
      match getInSvg g recur nodeId none with
      | .error e => .error e
      | .ok inp =>
        if !jsTruthy inp then .ok none
        else
          let baked := bakeStrokes (inp.getD "")
          let maxC : Int := jsOrInt (jsOrInt (baked.count : Int) (countStrokes baked.svg : Int)) 1
          let sRaw := jsOrInt s0 1
          let eRaw := jsOrInt e0 maxC
          let s := min (max 1 (min sRaw eRaw)) maxC
          let e := min (max 1 (max sRaw eRaw)) maxC
          .ok (some (applyRangeBaked baked.svg s e))
    | some (.transform x y sx sy) =>
      match getInSvg g recur nodeId none with
      | .error e => .error e
      | .ok inp =>
        if !jsTruthy inp then .ok none
        else .ok (some (applyTransform (inp.getD "") x y sx sy))
    | some (.composite aa ab sw) =>
      match getInSvg g recur nodeId (some "A") with
      | .error e => .error e
      | .ok a =>
        match getInSvg g recur nodeId (some "B") with
        | .error e => .error e
        | .ok b => .ok (compositeCombine a b aa ab sw)

def evalNodeSvgF (oracle : FetchOracle) (g : Graph) (fuel : Nat) :
    String → Except Unit (Option String) :=
  Nat.rec (motive := fun _ => String → Except Unit (Option String))
    (fun _ => .ok none) (fun _ ih => evalSvgStep oracle g ih) fuel

/-- `evalNodeSvg(nodeId, depth)` with the source's depth parameter. -/
def evalNodeSvg (oracle : FetchOracle) (g : Graph) (nodeId : String) (depth : Nat := 0) :
    Except Unit (Option String) :=
  if depth > 20 then .ok none else evalNodeSvgF oracle g (21 - depth) nodeId

/-! ### evalNode (the App evaluation pass, part_000 lines 1593-1654)

This pass has NO depth parameter: before branching on the node kind it
synchronously recurses into every incoming edge
(`ins(id).forEach(e => memo.set(e.source, evalNode(e.source)))`), so on
a graph with a reachable cycle the recursion never completes.  We embed
it with explicit fuel: `none` means the recursion did not complete
within `fuel` nested dependency evaluations — the source diverges on an
input exactly when the embedding is `none` for every fuel.  `some r` is
the settled result (`r = none` is a null artifact).  The pass-level
memo caches these deterministic values and is omitted. -/

def depVal (deps : List (String × Option (Option String))) (src : String) : Option String :=
  match deps.find? (fun p => p.1 == src) with
  | some (_, some v) => v
  | _ => none

def evalAppStep (oracle : FetchOracle) (g : Graph)
    (recur : String → Option (Option String)) (id : String) : Option (Option String) :=
  match lookupNode g id with
  | none => some none
  | some k =>
    let inE := insEdges g id
    let deps := inE.map (fun e => (e.source, recur e.source))
    if deps.any (fun p => p.2.isNone) then none
    else
      let getIn : Option String → Option String := fun h =>
        match findEdgeApp inE h with
        | none => none
        | some e => depVal deps e.source
      match k with
      | .kanji ch =>
        if ch = [] then some none
        else
          some (match getPreparedSvg oracle ch true with
            | some s => some s
            | none => callWorkerKanji oracle ch true)
      | .range s0 e0 =>
        let inp := getIn none
        if !jsTruthy inp then some none
        else
          let baked := bakeStrokes (inp.getD "")
          let s : Int := max 1 (min (jsOrInt s0 1) (jsOrInt (baked.count : Int) 1))
          let e : Int := max 1 (min (jsOrInt e0 (jsOrInt (baked.count : Int) 1))
            (jsOrInt (baked.count : Int) 1))
          some (some (applyRangeBaked baked.svg (min s e) (max s e)))
      | .transform x y sx sy =>
        let inp := getIn none
        if !jsTruthy inp then some none
        else some (some (applyTransform (inp.getD "") (jsOrQ x 0) (jsOrQ y 0)
          (jsOrQ sx 1) (jsOrQ sy 1)))
      | .composite aa ab sw =>
        some (compositeCombine (getIn (some "A")) (getIn (some "B")) aa ab sw)

def evalNode (oracle : FetchOracle) (g : Graph) (fuel : Nat) : String → Option (Option String) :=
  Nat.rec (motive := fun _ => String → Option (Option String))
    (fun _ => none) (fun _ ih => evalAppStep oracle g ih) fuel

/-! ### Observation functions used by the verification statements -/

/-- The per-element observation underlying `strokeGroupStatus`: for a
stroke group (`g[data-stroke]`), its parsed index exactly as
`applyRangeBaked` reads it, and whether it carries `display="none"`. -/
def strokeGroupInfo (n : XNode) : Option (Option Int × Bool) :=
  if n.tag == "g" && hasAttrL n.attrsOf "data-stroke" then
    some (parseIntJs (jsOrStr ((getAttrL n.attrsOf "data-stroke").getD "") "0"),
          n.getAttr "display" == some "none")
  else none

/-- Index and hidden-flag of every stroke group of a document, in
document order. -/
def strokeGroupStatus (t : XNode) : List (Option Int × Bool) :=
  (elemsOf t).filterMap strokeGroupInfo

def strokeIdxList (t : XNode) : List (Option Int) :=
  (strokeGroupStatus t).map Prod.fst

def inRangeB (s e : Int) : Option Int → Bool
  | some v => decide (s ≤ v) && decide (v ≤ e)
  | none => false

/-- Number of stroke groups not hidden by a `display="none"` attribute. -/
def visibleStrokeGroupCount (svgText : String) : Nat :=
  match parseXml svgText with
  | some d => ((strokeGroupStatus d).filter (fun p => !p.2)).length
  | none => 0

/-- Every stroke-index suffix present in a raw source, in document order. -/
def observedStrokeIndices (svgText : String) : List Nat :=
  match parseXml svgText with
  | some d => (elemsOf d).filterMap (fun e => (e.getAttr "id").bind matchStrokeSuffixNat)
  | none => []

def isBakedGroup (n : XNode) : Bool := n.getAttr "id" == some "__baked_strokes__"

/-- The `data-stroke` tags of the children of the emitted baked group. -/
def bakedGroupStrokeTags (svgText : String) : Option (List String) :=
  match parseXml svgText with
  | some d => (findFirst isBakedGroup d).map (fun gEl =>
      gEl.childrenOf.filterMap (fun c => c.getAttr "data-stroke"))
  | none => none

/-- The value the App pass's `getIn(handle)` awaits: the first matching
incoming edge's memoized source evaluation (at the dependency fuel). -/
def appGetIn (oracle : FetchOracle) (g : Graph) (fuel : Nat) (id : String)
    (h : Option String) : Option String :=
  match findEdgeApp (insEdges g id) h with
  | none => none
  | some e => (evalNode oracle g fuel e.source).join

/-! ### Concrete fixtures for the claim statements -/

def noOracle : FetchOracle := fun _ _ => none

/-- A cyclic chain of two Transform nodes feeding each other. -/
def cycGraph : Graph :=
  { nodes := [("A", .transform 0 0 1 1), ("B", .transform 0 0 1 1)],
    edges := [⟨"B", "A", none⟩, ⟨"A", "B", none⟩] }

/-- Divergence of the App evaluation pass on the cyclic Transform chain:
for every fuel, the recursion has not completed. -/
def evalAppDivergesOnCycle : Prop :=
  ∀ (oracle : FetchOracle) (fuel : Nat), evalNode oracle cycGraph fuel "A" = none

/-- An oracle that resolves the id of "a" (U+0061), the first code point
of the two-code-point string "ab". -/
def oracleAB : FetchOracle :=
  fun url _ => if url = githubSvgUrl "00061" then some "<svg/>" else none

/-- A graph with one Glyph node whose character is the two-code-point
string "ab" (code points 97 and 98). -/
def gAB : Graph := { nodes := [("k", .kanji [97, 98])], edges := [] }

/-- An oracle resolving U+6C38 (永) to a one-stroke-carrier source. -/
def oracleEi : FetchOracle :=
  fun url _ =>
    if url = githubSvgUrl "06c38" then some "<svg><path id=\"kvg:06c38-s1\" d=\"M1\"/></svg>"
    else none

/-- A Glyph node feeding port A of a Composite node; port B unconnected. -/
def gComp : Graph :=
  { nodes := [("k", .kanji [0x6c38]), ("c", .composite 1 1 false)],
    edges := [⟨"k", "c", some "A"⟩] }

/-- A Composite node with neither port connected. -/
def gCompEmpty : Graph := { nodes := [("c", .composite 1 1 false)], edges := [] }

/-- The prepared artifact of U+6C38 under `oracleEi` (the value of
`getPreparedSvg oracleEi [0x6c38] true`). -/
def prepEi : String :=
  "<svg width=\"100%\" height=\"100%\" viewBox=\"0 0 109 109\" vector-effect=\"non-scaling-stroke\" preserveAspectRatio=\"xMidYMid meet\"><style>\n      path, line, polyline \x7b\n        stroke: #fff !important;\n        stroke-width: 3 !important;\n        stroke-linecap: round !important;\n        stroke-linejoin: round !important;\n        fill: none !important;\n        vector-effect: non-scaling-stroke;\n      \x7d\n    </style><path id=\"kvg:06c38-s1\" d=\"M1\" data-stroke=\"1\" stroke=\"#fff\" stroke-width=\"3\" stroke-linecap=\"round\" stroke-linejoin=\"round\" fill=\"none\" vector-effect=\"non-scaling-stroke\"/></svg>"

/-- An oracle where the GitHub location fails and the local copy of
U+6C38 succeeds. -/
def oracleLocalOnly : FetchOracle :=
  fun url _ => if url = localSvgUrl "06c38" then some "<svg/>" else none

/-- A source whose stroke indices are 1 and 3 (a gap at 2). -/
def srcGapped : String := "<svg><path id=\"a-s1\"/><path id=\"b-s3\"/></svg>"

/-- A source with a carrier (index 2) that contains no drawable. -/
def srcEmptyCarrier : String := "<svg><g id=\"a-s2\"/><path id=\"b-s1\"/></svg>"

/-- A source with contiguous stroke indices 1 and 2. -/
def srcContiguous : String := "<svg><path id=\"a-s1\"/><path id=\"b-s2\"/></svg>"

/-! ## Supporting lemmas -/

theorem XNode.indOn {motive : XNode → Prop}
    (htext : ∀ s, motive (.text s))
    (helem : ∀ t a cs, (∀ c ∈ cs, motive c) → motive (.elem t a cs)) :
    ∀ n, motive n := by
  intro n
  induction n using XNode.rec (motive_2 := fun cs => ∀ c ∈ cs, motive c) with
  | elem t a cs ih => exact helem t a cs ih
  | text s => exact htext s
  | nil => rename_i c hc; cases hc
  | cons x xs ihx ihxs =>
    rename_i c hc
    cases hc with
    | head => exact ihx
    | tail _ h => exact ihxs c h

theorem getAttrL_nil (k : String) : getAttrL [] k = none := rfl

theorem getAttrL_cons (k0 v0 : String) (rest : List (String × String)) (k : String) :
    getAttrL ((k0, v0) :: rest) k = if k0 = k then some v0 else getAttrL rest k := by
  by_cases h : k0 = k
  · simp [getAttrL, List.find?_cons_of_pos, h]
  · rw [if_neg h]
    simp only [getAttrL]
    rw [List.find?_cons_of_neg]
    simp [h]

theorem getAttrL_setAttrL (a : List (String × String)) (k v k2 : String) :
    getAttrL (setAttrL a k v) k2 = if k = k2 then some v else getAttrL a k2 := by
  induction a with
  | nil =>
    show getAttrL [(k, v)] k2 = _
    rw [getAttrL_cons]
  | cons p rest ih =>
    obtain ⟨k0, v0⟩ := p
    by_cases h0 : k0 = k
    · subst h0
      have hs : setAttrL ((k0, v0) :: rest) k0 v = (k0, v) :: rest := by simp [setAttrL]
      rw [hs, getAttrL_cons, getAttrL_cons]
      by_cases h : k0 = k2 <;> simp [h]
    · have hs : setAttrL ((k0, v0) :: rest) k v = (k0, v0) :: setAttrL rest k v := by
        simp [setAttrL, h0]
      rw [hs, getAttrL_cons, getAttrL_cons, ih]
      by_cases h1 : k0 = k2 <;> by_cases h2 : k = k2 <;> simp [h1, h2]
      exact absurd (h1.trans h2.symm) h0
  
theorem getAttrL_removeAttrL (a : List (String × String)) (k k2 : String) :
    getAttrL (removeAttrL a k) k2 = if k = k2 then none else getAttrL a k2 := by
  induction a with
  | nil => simp [removeAttrL, getAttrL_nil]
  | cons p rest ih =>
    obtain ⟨k0, v0⟩ := p
    by_cases h0 : k0 = k
    · subst h0
      have : removeAttrL ((k0, v0) :: rest) k0 = removeAttrL rest k0 := by
        simp [removeAttrL, List.filter_cons]
      rw [this, ih, getAttrL_cons]
      by_cases h : k0 = k2 <;> simp [h]
    · have : removeAttrL ((k0, v0) :: rest) k = (k0, v0) :: removeAttrL rest k := by
        simp [removeAttrL, List.filter_cons, h0]
      rw [this, getAttrL_cons, ih, getAttrL_cons]
      by_cases h1 : k0 = k2 <;> by_cases h2 : k = k2 <;> simp [h1, h2]
      exact absurd (h1.trans h2.symm) h0

theorem mapAttrsList_eq_map (f : String → List (String × String) → List (String × String)) :
    ∀ cs, mapAttrsList f cs = cs.map (mapAttrs f)
  | [] => rfl
  | c :: cs => by simp [mapAttrsList, mapAttrsList_eq_map f cs]

theorem elemsList_eq_flatten : ∀ cs : List XNode, elemsList cs = (cs.map elemsOf).flatten
  | [] => rfl
  | c :: cs => by simp [elemsList, elemsList_eq_flatten cs]

theorem elemsOf_mapAttrs (f : String → List (String × String) → List (String × String)) :
    ∀ t, elemsOf (mapAttrs f t) = (elemsOf t).map (mapAttrs f) := by
  intro t
  induction t using XNode.indOn with
  | htext s => rfl
  | helem t a cs ih =>
    show elemsOf (XNode.elem t (f t a) (mapAttrsList f cs)) = _
    simp only [elemsOf, List.map_cons, mapAttrs]
    congr 1
    rw [mapAttrsList_eq_map, elemsList_eq_flatten, elemsList_eq_flatten, List.map_flatten,
      List.map_map, List.map_map]
    congr 1
    exact List.map_congr_left ih

theorem elemsList_map_mapAttrs (f : String → List (String × String) → List (String × String))
    (cs : List XNode) :
    elemsList (cs.map (mapAttrs f)) = (elemsList cs).map (mapAttrs f) := by
  rw [elemsList_eq_flatten, elemsList_eq_flatten, List.map_flatten, List.map_map, List.map_map]
  congr 1
  exact List.map_congr_left (fun c _ => elemsOf_mapAttrs f c)

theorem strokeGroupInfo_elem (t : String) (a : List (String × String)) (cs : List XNode) :
    strokeGroupInfo (XNode.elem t a cs) =
      if t == "g" && hasAttrL a "data-stroke" then
        some (parseIntJs (jsOrStr ((getAttrL a "data-stroke").getD "") "0"),
              getAttrL a "display" == some "none")
      else none := rfl

/-- Pointwise effect of the two range passes on one element: the stroke
index survives unchanged and the hidden flag becomes exactly
"index outside [s, e]". -/
theorem strokeGroupInfo_rangePasses (s e : Int) (n : XNode) :
    strokeGroupInfo (mapAttrs (rangePass2 s e) (mapAttrs rangePass1 n)) =
      (strokeGroupInfo n).map (fun pr => (pr.1, !(inRangeB s e pr.1))) := by
  cases n with
  | text s0 => rfl
  | elem t a cs =>
    have hm : mapAttrs (rangePass2 s e) (mapAttrs rangePass1 (XNode.elem t a cs)) =
        XNode.elem t (rangePass2 s e t (rangePass1 t a))
          (mapAttrsList (rangePass2 s e) (mapAttrsList rangePass1 cs)) := rfl
    rw [hm, strokeGroupInfo_elem, strokeGroupInfo_elem]
    by_cases hg : (t == "g" && hasAttrL a "data-stroke") = true
    · have hp1 : rangePass1 t a = setAttrL a "display" "none" := by
        unfold rangePass1; rw [if_pos hg]
      have hds : getAttrL (setAttrL a "display" "none") "data-stroke" =
          getAttrL a "data-stroke" := by
        rw [getAttrL_setAttrL]; simp
      have hha : hasAttrL (setAttrL a "display" "none") "data-stroke" =
          hasAttrL a "data-stroke" := by
        simp [hasAttrL, hds]
      have hg1 : (t == "g" && hasAttrL (setAttrL a "display" "none") "data-stroke") = true := by
        rw [hha]; exact hg
      have hdisp : getAttrL (setAttrL a "display" "none") "display" = some "none" := by
        rw [getAttrL_setAttrL]; simp
      rw [hp1]
      rcases hidx : parseIntJs (jsOrStr ((getAttrL a "data-stroke").getD "") "0") with _ | n0
      · have hp2 : rangePass2 s e t (setAttrL a "display" "none") =
            setAttrL a "display" "none" := by
          unfold rangePass2
          rw [if_pos hg1, hds, hidx]
        rw [hp2, if_pos hg1, if_pos hg, hds, hidx, hdisp]
        simp [inRangeB]
      · by_cases hin : (decide (s ≤ n0) && decide (n0 ≤ e)) = true
        · have hp2 : rangePass2 s e t (setAttrL a "display" "none") =
              removeAttrL (setAttrL a "display" "none") "display" := by
            unfold rangePass2
            rw [if_pos hg1, hds, hidx]
            simp [hin]
          have hds2 : getAttrL (removeAttrL (setAttrL a "display" "none") "display")
              "data-stroke" = getAttrL a "data-stroke" := by
            rw [getAttrL_removeAttrL]
            simp [hds]
          have hha2 : hasAttrL (removeAttrL (setAttrL a "display" "none") "display")
              "data-stroke" = hasAttrL a "data-stroke" := by
            simp [hasAttrL, hds2]
          have hg2 : (t == "g" && hasAttrL (removeAttrL (setAttrL a "display" "none") "display")
              "data-stroke") = true := by
            rw [hha2]; exact hg
          have hdisp2 : getAttrL (removeAttrL (setAttrL a "display" "none") "display")
              "display" = none := by
            rw [getAttrL_removeAttrL]; simp
          rw [hp2, if_pos hg2, if_pos hg, hds2, hidx, hdisp2]
          simp [inRangeB, hin]
        · have hp2 : rangePass2 s e t (setAttrL a "display" "none") =
              setAttrL a "display" "none" := by
            unfold rangePass2
            rw [if_pos hg1, hds, hidx]
            simp [hin]
          rw [hp2, if_pos hg1, if_pos hg, hds, hidx, hdisp]
          simp [inRangeB, Bool.of_not_eq_true hin]
    · have hp1 : rangePass1 t a = a := by
        unfold rangePass1; rw [if_neg hg]
      rw [hp1]
      have hp2 : rangePass2 s e t a = a := by
        unfold rangePass2; rw [if_neg hg]
      rw [hp2, if_neg hg]
      rfl

theorem strokeGroupStatus_root_svg (a : List (String × String)) (ys : List XNode) :
    strokeGroupStatus (XNode.elem "svg" a ys) = (elemsList ys).filterMap strokeGroupInfo := by
  simp only [strokeGroupStatus, elemsOf, List.filterMap_cons, strokeGroupInfo_elem]
  have hne : ¬("svg" = "g" ∧ hasAttrL a "data-stroke" = true) := by
    rintro ⟨h, -⟩
    exact absurd h (by decide)
  simp only [beq_iff_eq, Bool.and_eq_true, decide_eq_true_eq]
  rw [if_neg hne]

/-- `applyRangeBaked` on a document whose root is the svg element: every
stroke group keeps its index, and its hidden flag becomes exactly
"index outside [min s e, max s e]". -/
theorem strokeGroupStatus_applyRangeCore (s e : Int) (a : List (String × String))
    (cs : List XNode) :
    strokeGroupStatus (applyRangeCore s e (XNode.elem "svg" a cs)) =
      (strokeIdxList (XNode.elem "svg" a cs)).map
        (fun n => (n, !(inRangeB (min s e) (max s e) n))) := by
  have h0 : applyRangeCore s e (XNode.elem "svg" a cs) =
      XNode.elem "svg" a
        ((cs.map (mapAttrs rangePass1)).map (mapAttrs (rangePass2 (min s e) (max s e)))) := rfl
  rw [h0, strokeGroupStatus_root_svg, elemsList_map_mapAttrs, elemsList_map_mapAttrs,
    List.filterMap_map, List.filterMap_map]
  have hpt : ∀ x : XNode,
      (strokeGroupInfo ∘ mapAttrs (rangePass2 (min s e) (max s e)) ∘ mapAttrs rangePass1) x =
        (strokeGroupInfo x).map
          (fun pr => (pr.1, !(inRangeB (min s e) (max s e) pr.1))) := by
    intro x
    exact strokeGroupInfo_rangePasses (min s e) (max s e) x
  calc ((elemsList cs).filterMap
          (strokeGroupInfo ∘ mapAttrs (rangePass2 (min s e) (max s e)) ∘ mapAttrs rangePass1))
      = (elemsList cs).filterMap (fun x => (strokeGroupInfo x).map
          (fun pr => (pr.1, !(inRangeB (min s e) (max s e) pr.1)))) := by
        exact List.filterMap_congr (fun x _ => hpt x)
    _ = ((elemsList cs).filterMap strokeGroupInfo).map
          (fun pr => (pr.1, !(inRangeB (min s e) (max s e) pr.1))) := by
        rw [List.map_filterMap]
    _ = (strokeIdxList (XNode.elem "svg" a cs)).map
          (fun n => (n, !(inRangeB (min s e) (max s e) n))) := by
        rw [strokeIdxList, strokeGroupStatus_root_svg, List.map_map]
        rfl

theorem length_filter_singleton {α : Type} (p : α → Bool) (v : α) :
    (List.filter p [v]).length = if p v then 1 else 0 := by
  rw [List.filter_cons]
  split <;> simp

theorem filter_range'_length :
    ∀ (N a b : Nat), 1 ≤ a → a ≤ b → b ≤ N →
      ((List.range' 1 N).filter (fun n => decide (a ≤ n) && decide (n ≤ b))).length =
        b + 1 - a := by
  intro N
  induction N with
  | zero => intro a b h1 h2 h3; omega
  | succ N ih =>
    intro a b h1 h2 h3
    rw [show N + 1 = N + 1 from rfl, List.range'_concat, List.filter_append,
      List.length_append, length_filter_singleton]
    by_cases hb : b ≤ N
    · rw [ih a b h1 h2 hb]
      have hcond : (decide (a ≤ 1 + 1 * N) && decide (1 + 1 * N ≤ b)) = false := by
        simp only [Bool.and_eq_false_iff, decide_eq_false_iff_not]
        omega
      rw [hcond]
      simp
    · have hbN : b = N + 1 := by omega
      subst hbN
      have hcond : (decide (a ≤ 1 + 1 * N) && decide (1 + 1 * N ≤ N + 1)) = true := by
        simp only [Bool.and_eq_true, decide_eq_true_eq]
        omega
      rw [hcond]
      by_cases ha : a ≤ N
      · have hpref : List.filter (fun n => decide (a ≤ n) && decide (n ≤ N + 1))
            (List.range' 1 N) =
            List.filter (fun n => decide (a ≤ n) && decide (n ≤ N)) (List.range' 1 N) := by
          apply List.filter_congr
          intro x hx
          rcases List.mem_range'.mp hx with ⟨i, hi, hx2⟩
          have hxN : x ≤ N := by omega
          have h6 : x ≤ N + 1 := by omega
          simp [hxN, h6]
        rw [hpref, ih a N h1 ha (le_refl N)]
        simp
        omega
      · have haN : a = N + 1 := by omega
        subst haN
        have hpref : List.filter (fun n => decide (N + 1 ≤ n) && decide (n ≤ N + 1))
            (List.range' 1 N) = [] := by
          rw [List.filter_eq_nil_iff]
          intro x hx
          rcases List.mem_range'.mp hx with ⟨i, hi, hx2⟩
          have : ¬(N + 1 ≤ x) := by omega
          simp [this]
        rw [hpref]
        simp

theorem keys_addBucket (b : List (Nat × List XNode)) (n : Nat) (it : List XNode) :
    (addBucket b n it).map Prod.fst =
      if n ∈ b.map Prod.fst then b.map Prod.fst else b.map Prod.fst ++ [n] := by
  induction b with
  | nil => simp [addBucket]
  | cons p rest ih =>
    obtain ⟨m, xs⟩ := p
    by_cases h : m = n
    · subst h
      simp [addBucket]
    · simp only [addBucket, if_neg h, List.map_cons, ih, List.mem_cons]
      by_cases hmem : n ∈ rest.map Prod.fst
      · simp [hmem, Ne.symm h]
      · simp [hmem, Ne.symm h]

theorem lookupBucket_nil (n : Nat) : lookupBucket [] n = [] := rfl

theorem lookupBucket_cons (m : Nat) (xs : List XNode) (rest : List (Nat × List XNode)) (n : Nat) :
    lookupBucket ((m, xs) :: rest) n = if m = n then xs else lookupBucket rest n := by
  by_cases h : m = n
  · simp [lookupBucket, List.find?_cons_of_pos, h]
  · rw [if_neg h]
    simp only [lookupBucket]
    rw [List.find?_cons_of_neg]
    simp [h]

theorem lookupBucket_addBucket (b : List (Nat × List XNode)) (m n : Nat) (it : List XNode) :
    lookupBucket (addBucket b m it) n =
      if n = m then lookupBucket b n ++ it else lookupBucket b n := by
  induction b with
  | nil =>
    show lookupBucket [(m, it)] n = _
    rw [lookupBucket_cons]
    by_cases h : n = m
    · subst h
      simp [lookupBucket_nil]
    · rw [if_neg (fun hh => h hh.symm), if_neg h]
  | cons p rest ih =>
    obtain ⟨k, xs⟩ := p
    by_cases hk : k = m
    · subst hk
      have hstep : addBucket ((k, xs) :: rest) k it = (k, xs ++ it) :: rest := by
        simp [addBucket]
      rw [hstep, lookupBucket_cons, lookupBucket_cons]
      by_cases h : n = k
      · subst h
        simp
      · rw [if_neg (fun hh => h hh.symm), if_neg h, if_neg (fun hh => h hh.symm)]
    · have hstep : addBucket ((k, xs) :: rest) m it = (k, xs) :: addBucket rest m it := by
        simp [addBucket, hk]
      rw [hstep, lookupBucket_cons, lookupBucket_cons, ih]
      by_cases h1 : k = n <;> by_cases h2 : n = m
      · exact absurd (h1.trans h2) hk
      · simp [h1, h2]
      · simp [h1, h2, hk]
      · simp [h1, h2]

theorem buildBuckets_aux (cs : List (Nat × XNode)) :
    ∀ b : List (Nat × List XNode),
      (∀ n, n ∈ (cs.foldl (fun b2 p => addBucket b2 p.1 (drawablesOf p.2)) b).map Prod.fst ↔
        n ∈ b.map Prod.fst ∨ n ∈ cs.map Prod.fst) ∧
      ((b.map Prod.fst).Nodup →
        ((cs.foldl (fun b2 p => addBucket b2 p.1 (drawablesOf p.2)) b).map Prod.fst).Nodup) := by
  induction cs with
  | nil =>
    intro b
    constructor
    · intro n; simp
    · intro h; simpa using h
  | cons p rest ih =>
    intro b
    simp only [List.foldl_cons, List.map_cons, List.mem_cons]
    have hkeys := keys_addBucket b p.1 (drawablesOf p.2)
    constructor
    · intro n
      rw [(ih (addBucket b p.1 (drawablesOf p.2))).1 n, hkeys]
      by_cases hmem : p.1 ∈ b.map Prod.fst
      · rw [if_pos hmem]
        constructor
        · rintro (h | h)
          · exact Or.inl h
          · exact Or.inr (Or.inr h)
        · rintro (h | h | h)
          · exact Or.inl h
          · exact Or.inl (h ▸ hmem)
          · exact Or.inr h
      · rw [if_neg hmem]
        simp only [List.mem_append, List.mem_singleton]
        tauto
    · intro hnd
      apply (ih (addBucket b p.1 (drawablesOf p.2))).2
      rw [hkeys]
      by_cases hmem : p.1 ∈ b.map Prod.fst
      · rw [if_pos hmem]; exact hnd
      · rw [if_neg hmem]
        rw [List.nodup_append]
        refine ⟨hnd, List.nodup_singleton _, ?_⟩
        intro x hx hx2
        simp only [List.mem_singleton] at hx2
        exact hmem (hx2 ▸ hx)

/-- The bucket keys are exactly the distinct discovered stroke indices. -/
theorem buildBuckets_keys (cs : List (Nat × XNode)) :
    (∀ n, n ∈ (buildBuckets cs).map Prod.fst ↔ n ∈ cs.map Prod.fst) ∧
      ((buildBuckets cs).map Prod.fst).Nodup := by
  have h := buildBuckets_aux cs []
  unfold buildBuckets
  constructor
  · intro n
    simpa using h.1 n
  · exact h.2 (by simp)

theorem lookupBucket_foldl_aux (cs : List (Nat × XNode)) (n : Nat) :
    ∀ b : List (Nat × List XNode),
      lookupBucket (cs.foldl (fun b2 p => addBucket b2 p.1 (drawablesOf p.2)) b) n =
        lookupBucket b n ++
          ((cs.filter (fun p => p.1 == n)).map (fun p => drawablesOf p.2)).flatten := by
  induction cs with
  | nil => intro b; simp
  | cons p rest ih =>
    intro b
    simp only [List.foldl_cons, List.filter_cons]
    rw [ih (addBucket b p.1 (drawablesOf p.2)), lookupBucket_addBucket]
    by_cases h : p.1 = n
    · have hb : (p.1 == n) = true := by simp [h]
      rw [if_pos (h.symm), hb]
      simp
    · have hb : (p.1 == n) = false := by simp [h]
      rw [if_neg (fun hh => h hh.symm), hb]
      simp

/-- The bucket of index `n` holds exactly the drawables collected from
the carriers with index `n`, in scan order. -/
theorem lookupBucket_buildBuckets (cs : List (Nat × XNode)) (n : Nat) :
    lookupBucket (buildBuckets cs) n =
      ((cs.filter (fun p => p.1 == n)).map (fun p => drawablesOf p.2)).flatten := by
  unfold buildBuckets
  rw [lookupBucket_foldl_aux cs n []]
  simp [lookupBucket_nil]

theorem emitGroups_foldl_aux (b : List (Nat × List XNode)) :
    ∀ (nums : List Nat) (gs : List XNode) (c : Nat),
      nums.foldl (fun acc n =>
        let w := lookupBucket b n
        if w.isEmpty then acc else (acc.1 ++ [mkStrokeGroup n w], max acc.2 n)) (gs, c) =
      (gs ++ (nums.filter (fun n => !(lookupBucket b n).isEmpty)).map
          (fun n => mkStrokeGroup n (lookupBucket b n)),
       (nums.filter (fun n => !(lookupBucket b n).isEmpty)).foldl max c) := by
  intro nums
  induction nums with
  | nil => intro gs c; simp
  | cons n rest ih =>
    intro gs c
    simp only [List.foldl_cons, List.filter_cons]
    by_cases hw : (lookupBucket b n).isEmpty = true
    · simp only [hw, if_true, Bool.not_true]
      rw [ih gs c]
      simp
    · have hw2 : (lookupBucket b n).isEmpty = false := by
        cases hval : (lookupBucket b n).isEmpty
        · rfl
        · exact absurd hval hw
      simp only [hw2, Bool.false_eq_true, if_false, Bool.not_false, if_true]
      rw [ih (gs ++ [mkStrokeGroup n (lookupBucket b n)]) (max c n)]
      simp

/-- The emission loop emits exactly the groups of the nonempty buckets,
in the order of `nums`, and the count is their running maximum. -/
theorem emitGroups_eq (b : List (Nat × List XNode)) (nums : List Nat) :
    emitGroups b nums =
      ((nums.filter (fun n => !(lookupBucket b n).isEmpty)).map
        (fun n => mkStrokeGroup n (lookupBucket b n)),
       (nums.filter (fun n => !(lookupBucket b n).isEmpty)).foldl max 0) := by
  unfold emitGroups
  rw [emitGroups_foldl_aux b nums [] 0]
  simp

theorem sortNats_sorted (l : List Nat) : List.Sorted (· ≤ ·) (sortNats l) :=
  List.sorted_insertionSort (· ≤ ·) l

theorem sortNats_perm (l : List Nat) : (sortNats l).Perm l :=
  List.perm_insertionSort (· ≤ ·) l

theorem evalNode_succ (oracle : FetchOracle) (g : Graph) (fuel : Nat) (id : String) :
    evalNode oracle g (fuel + 1) id = evalAppStep oracle g (evalNode oracle g fuel) id := rfl

theorem evalNodeSvgF_succ (oracle : FetchOracle) (g : Graph) (fuel : Nat) (id : String) :
    evalNodeSvgF oracle g (fuel + 1) id = evalSvgStep oracle g (evalNodeSvgF oracle g fuel) id := rfl

theorem depVal_map (r : String → Option (Option String)) :
    ∀ (inE : List GraphEdge) (src : String),
      src ∈ inE.map GraphEdge.source →
      (∀ e2 ∈ inE, (r e2.source).isSome) →
      depVal (inE.map (fun e2 => (e2.source, r e2.source))) src = (r src).join := by
  intro inE
  induction inE with
  | nil =>
    intro src hmem
    simp at hmem
  | cons h0 rest ih =>
    intro src hmem hall
    by_cases hs : h0.source = src
    · subst hs
      unfold depVal
      rw [show List.map (fun e2 => (e2.source, r e2.source)) (h0 :: rest) =
        (h0.source, r h0.source) :: rest.map (fun e2 => (e2.source, r e2.source)) from rfl]
      rw [List.find?_cons_of_pos _ (by simp)]
      have hsome := hall h0 (by simp)
      rcases hv : r h0.source with _ | v
      · rw [hv] at hsome
        simp at hsome
      · simp [hv]
    · have hmem2 : src ∈ rest.map GraphEdge.source := by
        simp only [List.map_cons, List.mem_cons] at hmem
        rcases hmem with h | h
        · exact absurd h.symm hs
        · exact h
      have hall2 : ∀ e2 ∈ rest, (r e2.source).isSome := fun e2 he2 => hall e2 (by simp [he2])
      have hrec := ih src hmem2 hall2
      unfold depVal at hrec ⊢
      rw [show List.map (fun e2 => (e2.source, r e2.source)) (h0 :: rest) =
        (h0.source, r h0.source) :: rest.map (fun e2 => (e2.source, r e2.source)) from rfl]
      rw [List.find?_cons_of_neg _ (by simp [hs])]
      exact hrec

theorem natToHexAux_length_le :
    ∀ (fuel n k : Nat), 0 < k → n < 16 ^ k →
      (natToHexAux fuel n).length ≤ k := by
  intro fuel
  induction fuel with
  | zero =>
    intro n k hk hn
    simp [natToHexAux]
  | succ f ih =>
    intro n k hk hn
    unfold natToHexAux
    by_cases h16 : n < 16
    · rw [if_pos h16]
      simpa using hk
    · rw [if_neg h16]
      have hk2 : 2 ≤ k := by
        by_contra hlt
        have hk1 : k = 1 := by omega
        subst hk1
        simp at hn
        omega
      have hdiv : n / 16 < 16 ^ (k - 1) := by
        rw [Nat.div_lt_iff_lt_mul (by norm_num)]
        have h1 : (16:Nat) ^ (k - 1) * 16 = 16 ^ k := by
          rw [← pow_succ]
          congr 1
          omega
        omega
      have hrec : (natToHexAux f (n / 16)).length ≤ k - 1 :=
        ih (n / 16) (k - 1) (by omega) hdiv
      simp only [List.length_append, List.length_cons, List.length_nil]
      omega

/-- The App pass diverges on the cyclic Transform chain: at every fuel
both nodes are still unfinished, because each one's dependency list
leads back to the other. -/
theorem evalNode_cycGraph_none :
    ∀ (fuel : Nat) (oracle : FetchOracle),
      evalNode oracle cycGraph fuel "A" = none ∧ evalNode oracle cycGraph fuel "B" = none := by
  intro fuel
  induction fuel with
  | zero => intro oracle; exact ⟨rfl, rfl⟩
  | succ f ih =>
    intro oracle
    constructor
    · rw [evalNode_succ]
      have hB := (ih oracle).2
      unfold evalAppStep
      have h1 : lookupNode cycGraph "A" = some (.transform 0 0 1 1) := rfl
      have h2 : insEdges cycGraph "A" = [⟨"B", "A", none⟩] := rfl
      rw [h1, h2]
      simp [hB]
    · rw [evalNode_succ]
      have hA := (ih oracle).1
      unfold evalAppStep
      have h1 : lookupNode cycGraph "B" = some (.transform 0 0 1 1) := rfl
      have h2 : insEdges cycGraph "B" = [⟨"A", "B", none⟩] := rfl
      rw [h1, h2]
      simp [hA]

/-! ## Claim theorems -/

/-- C7: composite applied to two equal inputs returns the first input
unchanged — the identity short-circuit `if (svgA === svgB) return svgA`. -/
theorem c7_composite_identity : ∀ A : String, composite A A = A := by
  intro A
  unfold composite
  simp

/-- C10: `countStrokes` never returns 0.  With baked stroke groups it
returns their positive count; otherwise the mistyped suffix pattern can
only contribute NaN (so `max` is NaN or 0) and `max || 1` yields 1; a
parse failure also yields 1. -/
theorem c10_countStrokes_ge_one : ∀ s : String, 1 ≤ countStrokes s := by
  intro s
  unfold countStrokes
  split
  · exact le_refl 1
  · dsimp only
    split
    · next h => omega
    · split
      · exact le_refl 1
      · next x => split <;> omega

/-- C9: on any parse failure — the input does not parse, or the parsed
document has no svg root element — `forceStrokeColor` and
`applyTransform` return the input unchanged instead of throwing. -/
theorem c9_parse_failure_graceful :
    ∀ (s color : String) (x y sx sy : ℚ),
      (parseXml s = none →
        forceStrokeColor s color = s ∧ applyTransform s x y sx sy = s) ∧
      (∀ d, parseXml s = some d → containsElem isSvg d = false →
        forceStrokeColor s color = s ∧ applyTransform s x y sx sy = s) := by
  intro s color x y sx sy
  constructor
  · intro h
    constructor
    · unfold forceStrokeColor
      rw [h]
    · unfold applyTransform
      rw [h]
  · intro d hd hs
    constructor
    · unfold forceStrokeColor
      rw [hd]
      simp [hs]
    · unfold applyTransform
      rw [hd]
      simp [hs]

theorem c9_parse_failure_graceful_witness :
    parseXml "<oops" = none ∧ forceStrokeColor "<oops" "#fff" = "<oops" ∧
      applyTransform "<oops" 1 2 3 4 = "<oops" :=
  ⟨rfl, ((c9_parse_failure_graceful "<oops" "#fff" 1 2 3 4).1 rfl).1,
    ((c9_parse_failure_graceful "<oops" "#fff" 1 2 3 4).1 rfl).2⟩

/-- C1: glyph resolution does NOT reject every string that is not exactly
one code point: `code5` throws invalid-char exactly when `codePointAt(0)`
is falsy (empty string, or a leading U+0000); a string of two or more
code points is resolved through its first code point alone, and an App
evaluation of a Glyph node with the two-code-point character "ab"
produces the (non-null) artifact of "a" rather than a null artifact. -/
theorem c1_glyph_resolution :
    (∀ ch : List Nat, code5 ch = .error .invalidChar ↔ (ch.head? = none ∨ ch.head? = some 0))
  ∧ (∀ (cp : Nat) (rest : List Nat), code5 (cp :: rest) = code5 [cp])
  ∧ evalNode oracleAB gAB 2 "k" = some (getPreparedSvg oracleAB [97, 98] true)
  ∧ (getPreparedSvg oracleAB [97, 98] true).isSome = true := by
  refine ⟨?_, fun cp rest => rfl, rfl, rfl⟩
  intro ch
  cases ch with
  | nil => simp [code5]
  | cons cp rest =>
    unfold code5
    simp only [List.head?]
    by_cases h : cp = 0
    · simp [h]
    · simp [h]

/-- C1 counterexample: the two-code-point string "ab" (97, 98) does not
fail with invalid-char — `code5` resolves it to the id of "a" — and the
Glyph node with that character does not evaluate to a null artifact. -/
theorem c1_glyph_resolution_counterexample :
    code5 [97, 98] = .ok "00061" ∧ evalNode oracleAB gAB 2 "k" ≠ some none := by
  exact ⟨rfl, by decide⟩

/-- C2: the node-local preview evaluator `evalNodeSvg` aborts with a null
result as soon as the depth exceeds 20, and on the concrete cyclic chain
of two Transform nodes it terminates with null; the App evaluation pass
`evalNode`, which has no depth guard, never completes on that cyclic
graph (it is `none` at every fuel). -/
theorem c2_depth_guard :
    (∀ (oracle : FetchOracle) (g : Graph) (id : String) (depth : Nat),
      depth > 20 → evalNodeSvg oracle g id depth = .ok none)
  ∧ evalNodeSvg noOracle cycGraph "A" 0 = .ok none
  ∧ evalAppDivergesOnCycle := by
  refine ⟨?_, rfl, ?_⟩
  · intro oracle g id depth h
    unfold evalNodeSvg
    rw [if_pos h]
  · intro oracle fuel
    exact (evalNode_cycGraph_none fuel oracle).1

theorem c2_depth_guard_witness :
    21 > 20 ∧ evalNodeSvg noOracle cycGraph "A" 21 = .ok none :=
  ⟨by decide, c2_depth_guard.1 noOracle cycGraph "A" 21 (by decide)⟩

/-- C2 counterexample: on the cyclic Transform chain the App evaluation
pass never returns at all — for every fuel the fuel-indexed embedding is
still `none` — so it does not terminate with a null result. -/
theorem c2_depth_guard_counterexample : evalAppDivergesOnCycle := by
  intro oracle fuel
  exact (evalNode_cycGraph_none fuel oracle).1

/-- C5: glyph resolution.  On a cache hit the cached body is returned
with the cache untouched.  On a miss the GitHub location is tried with
timeoutMs 6000; if its body is falsy the local location is tried with
the same bound; a truthy body is returned and cached under the
codepoint id; if both fail the call throws NotFound and the cache is
unchanged, so a later call over the same cache (with a now-working
network) runs the full fallback chain again.  For a first code point
below 16^5 the codepoint id has exactly 5 (lowercase hex) digits. -/
theorem c5_fetch_fallback_caching :
    ∀ (oracle : FetchOracle) (cache : List (String × String)) (ch : List Nat) (c5 : String),
      code5 ch = .ok c5 →
      ( (∀ v, lookupAssoc cache c5 = some v →
          fetchKanjiVGSvg oracle cache ch = (.ok v, cache))
      ∧ (lookupAssoc cache c5 = none →
          (∀ s, jsTruthyOpt (tryFetch oracle (githubSvgUrl c5) 6000) = some s →
            fetchKanjiVGSvg oracle cache ch = (.ok s, setAssoc cache c5 s))
        ∧ (jsTruthyOpt (tryFetch oracle (githubSvgUrl c5) 6000) = none →
            ∀ s, jsTruthyOpt (tryFetch oracle (localSvgUrl c5) 6000) = some s →
              fetchKanjiVGSvg oracle cache ch = (.ok s, setAssoc cache c5 s))
        ∧ (jsTruthyOpt (tryFetch oracle (githubSvgUrl c5) 6000) = none →
            jsTruthyOpt (tryFetch oracle (localSvgUrl c5) 6000) = none →
            fetchKanjiVGSvg oracle cache ch = (.error .notFound, cache) ∧
            (∀ (oracle2 : FetchOracle) (s : String),
              jsTruthyOpt (tryFetch oracle2 (githubSvgUrl c5) 6000) = some s →
              fetchKanjiVGSvg oracle2 cache ch = (.ok s, setAssoc cache c5 s)))))
      ∧ (∀ cp rest, ch = cp :: rest → 0 < cp → cp < 16 ^ 5 → c5.length = 5) := by
  intro oracle cache ch c5 hc5
  refine ⟨⟨?_, ?_⟩, ?_⟩
  · intro v hv
    simp only [fetchKanjiVGSvg, hc5, hv]
  · intro hmiss
    refine ⟨?_, ?_, ?_⟩
    · intro s hs
      simp only [fetchKanjiVGSvg, hc5, hmiss, hs]
    · intro hgh s hs
      simp only [fetchKanjiVGSvg, hc5, hmiss, hgh, hs]
    · intro hgh hloc
      constructor
      · simp only [fetchKanjiVGSvg, hc5, hmiss, hgh, hloc]
      · intro oracle2 s hs
        simp only [fetchKanjiVGSvg, hc5, hmiss, hs]
  · intro cp rest hch hcp hbound
    subst hch
    have heq : c5 = pad5 (natToHexLower cp) := by
      unfold code5 at hc5
      simp only [List.head?] at hc5
      rw [if_neg (by omega)] at hc5
      injection hc5 with h
      exact h.symm
    subst heq
    have hlen : (natToHexLower cp).length ≤ 5 := by
      have := natToHexAux_length_le (cp + 1) cp 5 (by norm_num) hbound
      exact this
    unfold pad5
    by_cases h5 : 5 ≤ (natToHexLower cp).length
    · rw [if_pos h5]
      omega
    · rw [if_neg h5]
      rw [String.length_append]
      have hrep : (String.mk (List.replicate (5 - (natToHexLower cp).length) '0')).length =
          5 - (natToHexLower cp).length := by
        show (List.replicate (5 - (natToHexLower cp).length) '0').length = _
        simp
      rw [hrep]
      omega

theorem c5_fetch_fallback_caching_witness :
    fetchKanjiVGSvg oracleLocalOnly [] [0x6c38] = (.ok "<svg/>", [("06c38", "<svg/>")]) ∧
      (0x6c38 : Nat) < 16 ^ 5 ∧ "06c38".length = 5 := by
  have h := c5_fetch_fallback_caching oracleLocalOnly [] [0x6c38] "06c38" rfl
  exact ⟨(h.1.2 rfl).2.1 rfl "<svg/>" rfl, by norm_num,
    h.2 0x6c38 [] rfl (by norm_num) (by norm_num)⟩

/-- C6: the Composite branch of both evaluation passes.  With both port
artifacts present (non-empty) the result is `compositeAlpha` of the
two; with exactly one present that artifact passes through unchanged;
with neither the result is null.  The second and third conjuncts hook
this behaviour into `evalNodeSvg` (within the depth bound) and into the
App pass `evalNode` (given its pre-evaluated dependencies settle). -/
theorem c6_composite_ports :
    (∀ (a b : Option String) (aa ab : ℚ) (sw : Bool),
        (∀ sa sb, a = some sa → sa ≠ "" → b = some sb → sb ≠ "" →
          compositeCombine a b aa ab sw = some (compositeAlpha sa sb aa ab sw))
      ∧ (∀ sa, a = some sa → sa ≠ "" → b = none →
          compositeCombine a b aa ab sw = some sa)
      ∧ (a = none → ∀ sb, b = some sb → sb ≠ "" →
          compositeCombine a b aa ab sw = some sb)
      ∧ (a = none → b = none → compositeCombine a b aa ab sw = none))
  ∧ (∀ (oracle : FetchOracle) (g : Graph) (id : String) (depth : Nat)
        (aa ab : ℚ) (sw : Bool) (a b : Option String),
      id ≠ "" → depth ≤ 20 →
      lookupNode g id = some (.composite aa ab sw) →
      getInSvg g (evalNodeSvgF oracle g (20 - depth)) id (some "A") = .ok a →
      getInSvg g (evalNodeSvgF oracle g (20 - depth)) id (some "B") = .ok b →
      evalNodeSvg oracle g id depth = .ok (compositeCombine a b aa ab sw))
  ∧ (∀ (oracle : FetchOracle) (g : Graph) (fuel : Nat) (id : String)
        (aa ab : ℚ) (sw : Bool),
      lookupNode g id = some (.composite aa ab sw) →
      (∀ e ∈ insEdges g id, (evalNode oracle g fuel e.source).isSome) →
      evalNode oracle g (fuel + 1) id =
        some (compositeCombine (appGetIn oracle g fuel id (some "A"))
          (appGetIn oracle g fuel id (some "B")) aa ab sw)) := by
  refine ⟨?_, ?_, ?_⟩
  · intro a b aa ab sw
    refine ⟨?_, ?_, ?_, ?_⟩
    · rintro sa sb rfl hsa rfl hsb
      simp [compositeCombine, jsTruthy, hsa, hsb]
    · rintro sa rfl hsa rfl
      simp [compositeCombine, jsTruthy, jsOrO, hsa]
    · rintro rfl sb rfl hsb
      simp [compositeCombine, jsTruthy, jsOrO]
    · rintro rfl rfl
      simp [compositeCombine, jsTruthy, jsOrO]
  · intro oracle g id depth aa ab sw a b hid hdepth hk hA hB
    unfold evalNodeSvg
    rw [if_neg (by omega)]
    have hfuel : 21 - depth = (20 - depth) + 1 := by omega
    rw [hfuel, evalNodeSvgF_succ]
    simp only [evalSvgStep, if_neg hid, hk, hA, hB]
  · intro oracle g fuel id aa ab sw hk hdeps
    rw [evalNode_succ]
    have hany : ((insEdges g id).map
        (fun e => (e.source, evalNode oracle g fuel e.source))).any
          (fun p => p.2.isNone) = false := by
      rw [List.any_eq_false]
      intro p hp
      simp only [List.mem_map] at hp
      rcases hp with ⟨e, he, rfl⟩
      have := hdeps e he
      simp only [Option.isNone]
      rcases hval : evalNode oracle g fuel e.source with _ | v
      · rw [hval] at this
        simp at this
      · simp
    have hg : ∀ h0 : Option String,
        (match findEdgeApp (insEdges g id) h0 with
          | none => none
          | some e => depVal ((insEdges g id).map
              (fun e2 => (e2.source, evalNode oracle g fuel e2.source))) e.source) =
          appGetIn oracle g fuel id h0 := by
      intro h0
      unfold appGetIn
      rcases hfind : findEdgeApp (insEdges g id) h0 with _ | e
      · rfl
      · have hmem : e ∈ insEdges g id := List.mem_of_find?_eq_some hfind
        exact depVal_map (fun src => evalNode oracle g fuel src) (insEdges g id) e.source
          (List.mem_map_of_mem _ hmem) (fun e2 he2 => hdeps e2 he2)
    simp only [evalAppStep, hk, hany, Bool.false_eq_true, if_false, hg]

theorem c6_composite_ports_witness :
    evalNodeSvg oracleEi gComp "c" 0 =
      .ok (compositeCombine (getPreparedSvg oracleEi [0x6c38] true) none 1 1 false) ∧
    compositeCombine (some prepEi) none 1 1 false = some prepEi ∧
    evalNodeSvg oracleEi gCompEmpty "c" 0 = .ok (compositeCombine none none 1 1 false) ∧
    compositeCombine none none 1 1 false = none := by
  refine ⟨?_, ?_, ?_, (c6_composite_ports.1 none none 1 1 false).2.2.2 rfl rfl⟩
  · exact c6_composite_ports.2.1 oracleEi gComp "c" 0 1 1 false
      (getPreparedSvg oracleEi [0x6c38] true) none (by decide) (by omega) rfl rfl rfl
  · exact (c6_composite_ports.1 (some prepEi) none 1 1 false).2.1 prepEi rfl (by decide) rfl
  · exact c6_composite_ports.2.1 oracleEi gCompEmpty "c" 0 1 1 false none none
      (by decide) (by omega) rfl rfl rfl

theorem firstSvg_root (a : List (String × String)) (cs : List XNode) :
    firstSvg (XNode.elem "svg" a cs) = some (XNode.elem "svg" a cs) := rfl

theorem rewriteFirstN_root_svg (f : XNode → XNode) (a : List (String × String))
    (cs : List XNode) :
    rewriteFirstN isSvg f (XNode.elem "svg" a cs) = f (XNode.elem "svg" a cs) := rfl

/-- C8: for documents with an svg root, `compositeAlpha` replaces A's
root children with exactly two groups — one wrapping A's element
children with opacity clamp(alphaA, 0, 1), one wrapping copies of B's
element children with opacity clamp(alphaB, 0, 1) — ordered A-then-B,
or B-then-A when swap is set; and clamp really is clamping to [0, 1]. -/
theorem c8_compositeAlpha_structure :
    ∀ (svgA svgB : String) (aa ab : ℚ) (sw : Bool)
      (aAttrs bAttrs : List (String × String)) (csA csB : List XNode),
      parseXml svgA = some (XNode.elem "svg" aAttrs csA) →
      parseXml svgB = some (XNode.elem "svg" bAttrs csB) →
      (compositeAlpha svgA svgB aa ab sw =
        serializeXml (XNode.elem "svg" aAttrs
          (if sw then
            [XNode.elem "g" [("opacity", ratStr (clamp01 ab))] (csB.filter XNode.isElem),
             XNode.elem "g" [("opacity", ratStr (clamp01 aa))] (csA.filter XNode.isElem)]
          else
            [XNode.elem "g" [("opacity", ratStr (clamp01 aa))] (csA.filter XNode.isElem),
             XNode.elem "g" [("opacity", ratStr (clamp01 ab))] (csB.filter XNode.isElem)])))
      ∧ (∀ v : ℚ, 0 ≤ clamp01 v ∧ clamp01 v ≤ 1 ∧ (0 ≤ v → v ≤ 1 → clamp01 v = v)) := by
  intro svgA svgB aa ab sw aAttrs bAttrs csA csB hA hB
  constructor
  · unfold compositeAlpha
    rw [hA, hB]
    simp only [firstSvg_root, rewriteFirstN_root_svg]
    congr 1
  · intro v
    refine ⟨le_max_left 0 _, ?_, ?_⟩
    · unfold clamp01
      exact max_le (by norm_num) (min_le_left 1 v)
    · intro h0 h1
      unfold clamp01
      rw [min_eq_right h1, max_eq_right h0]

theorem c8_compositeAlpha_structure_witness :
    compositeAlpha "<svg><a/></svg>" "<svg><b/></svg>" 1 1 false =
      "<svg><g opacity=\"1\"><a/></g><g opacity=\"1\"><b/></g></svg>" ∧
    clamp01 2 = 1 ∧ clamp01 (-1) = 0 := by
  have h := c8_compositeAlpha_structure "<svg><a/></svg>" "<svg><b/></svg>" 1 1 false
    [] [] [XNode.elem "a" [] []] [XNode.elem "b" [] []] rfl rfl
  refine ⟨h.1.trans (by rfl), ?_, ?_⟩
  · unfold clamp01
    norm_num
  · unfold clamp01
    norm_num

/-- C3 (amended): the emission structure of `bakeStrokes`.  The sorted
bucket keys are exactly the distinct discovered stroke indices in
ascending order; one group is emitted per such index whose bucket holds
at least one drawable (an index whose carriers contain no drawable is
dropped); a bucket is nonempty exactly when one of its carriers
contains a drawable; the count is the maximum emitted index with
fallback to the number of distinct discovered indices (`jsOrNat`); when
every discovered index owns a drawable this becomes the maximum
discovered index (with the same fallback); and `bakeStrokes` returns
exactly `bakeCore`'s serialization and count once parsing and noise
removal leave a document with an svg root. -/
theorem c3_bake_emission :
    (∀ d1 : XNode,
      let d2 := rewriteFirstN isSvg normalizeSvgRoot d1
      let bucket := buildBuckets (bakeCarriers d2)
      let nums := sortNats (bucket.map Prod.fst)
      let emitted := nums.filter (fun n => !(lookupBucket bucket n).isEmpty)
      List.Sorted (· ≤ ·) nums
      ∧ nums.Nodup
      ∧ (∀ n, n ∈ nums ↔ n ∈ (bakeCarriers d2).map Prod.fst)
      ∧ (emitGroups bucket nums).1 =
          emitted.map (fun n => mkStrokeGroup n (lookupBucket bucket n))
      ∧ (∀ n, lookupBucket bucket n ≠ [] ↔
          ∃ p ∈ bakeCarriers d2, p.1 = n ∧ drawablesOf p.2 ≠ [])
      ∧ (bakeCore d1).2 = jsOrNat (emitted.foldl max 0) nums.length
      ∧ ((∀ n ∈ nums, lookupBucket bucket n ≠ []) →
          (bakeCore d1).2 = jsOrNat (nums.foldl max 0) nums.length))
    ∧ (∀ (svgText : String) (d0 d1 : XNode),
        parseXml svgText = some d0 → removeAll isNoise d0 = some d1 →
        containsElem isSvg d1 = true →
        (bakeStrokes svgText).count = (bakeCore d1).2 ∧
        (bakeStrokes svgText).svg = serializeXml (bakeCore d1).1) := by
  constructor
  · intro d1
    dsimp only
    set d2 := rewriteFirstN isSvg normalizeSvgRoot d1 with hd2
    set bucket := buildBuckets (bakeCarriers d2) with hbucket
    set nums := sortNats (bucket.map Prod.fst) with hnums
    have hcore : (bakeCore d1).2 = jsOrNat (emitGroups bucket nums).2 nums.length := rfl
    refine ⟨sortNats_sorted _, ?_, ?_, ?_, ?_, ?_, ?_⟩
    · exact ((sortNats_perm (bucket.map Prod.fst)).nodup_iff).mpr
        (buildBuckets_keys (bakeCarriers d2)).2
    · intro n
      rw [hnums, (sortNats_perm (bucket.map Prod.fst)).mem_iff, hbucket]
      exact (buildBuckets_keys (bakeCarriers d2)).1 n
    · rw [emitGroups_eq]
    · intro n
      rw [hbucket, lookupBucket_buildBuckets]
      constructor
      · intro hne
        by_contra hcon
        push_neg at hcon
        apply hne
        rw [List.flatten_eq_nil_iff]
        intro l hl
        simp only [List.mem_map] at hl
        rcases hl with ⟨p, hp, rfl⟩
        rw [List.mem_filter] at hp
        have hpn : p.1 = n := by simpa using hp.2
        exact hcon p hp.1 hpn
      · rintro ⟨p, hp, hpn, hdraw⟩ hflat
        rw [List.flatten_eq_nil_iff] at hflat
        apply hdraw
        apply hflat
        rw [List.mem_map]
        refine ⟨p, ?_, rfl⟩
        rw [List.mem_filter]
        exact ⟨hp, by simp [hpn]⟩
    · rw [hcore, emitGroups_eq]
    · intro hall
      have hemit : nums.filter (fun n => !(lookupBucket bucket n).isEmpty) = nums := by
        rw [List.filter_eq_self]
        intro n hn
        have hnn := hall n hn
        simpa [List.isEmpty_iff] using hnn
      rw [hcore, emitGroups_eq, hemit]
  · intro svgText d0 d1 h0 h1 hsvg
    constructor
    · simp only [bakeStrokes, h0, h1, hsvg, Bool.not_true, Bool.false_eq_true, if_false]
    · simp only [bakeStrokes, h0, h1, hsvg, Bool.not_true, Bool.false_eq_true, if_false]

set_option maxRecDepth 100000 in
/-- C3 counterexample: in `srcEmptyCarrier` the discovered stroke-index
suffixes are 2 and 1 (maximum 2, both positive), yet bake emits only
one group (for index 1, whose carrier is drawable) and returns
count 1 — not one group per distinct discovered index, and not the
maximum observed suffix. -/
theorem c3_bake_emission_counterexample :
    observedStrokeIndices srcEmptyCarrier = [2, 1] ∧
    (bakeStrokes srcEmptyCarrier).count = 1 ∧
    bakedGroupStrokeTags (bakeStrokes srcEmptyCarrier).svg = some ["1"] :=
  ⟨rfl, rfl, rfl⟩

set_option maxRecDepth 100000 in
theorem c3_bake_emission_witness :
    (bakeStrokes srcGapped).count =
      (bakeCore (XNode.elem "svg" []
        [XNode.elem "path" [("id", "a-s1")] [], XNode.elem "path" [("id", "b-s3")] []])).2 ∧
    (bakeCore (XNode.elem "svg" []
      [XNode.elem "path" [("id", "a-s1")] [], XNode.elem "path" [("id", "b-s3")] []])).2 = 3 := by
  have h := c3_bake_emission.2 srcGapped
    (XNode.elem "svg" []
      [XNode.elem "path" [("id", "a-s1")] [], XNode.elem "path" [("id", "b-s3")] []])
    (XNode.elem "svg" []
      [XNode.elem "path" [("id", "a-s1")] [], XNode.elem "path" [("id", "b-s3")] []])
    rfl rfl rfl
  exact ⟨h.1, rfl⟩

theorem containsElem_root_svg (a : List (String × String)) (cs : List XNode) :
    containsElem isSvg (XNode.elem "svg" a cs) = true := rfl

theorem visible_count_applyRangeCore (s e : Int) (a : List (String × String))
    (cs : List XNode) :
    ((strokeGroupStatus (applyRangeCore s e (XNode.elem "svg" a cs))).filter
        (fun p => !p.2)).length =
      ((strokeIdxList (XNode.elem "svg" a cs)).filter
        (inRangeB (min s e) (max s e))).length := by
  rw [strokeGroupStatus_applyRangeCore, List.filter_map, List.length_map]
  congr 1
  apply List.filter_congr
  intro x _
  simp [Function.comp, Bool.not_not]

/-- C4: on an svg-rooted document, the range pass (1) marks every stroke
group hidden exactly when its parsed index falls outside
[min s e, max s e], (2) is what `applyRangeBaked` serializes whenever the
input parses to an svg root, (3) leaves visible exactly the stroke groups
whose index lies in the range — their number is the number of stroke-group
indices in [min s e, max s e], and (4) that number equals e − s + 1 for
valid bounds 1 ≤ s ≤ e ≤ N when the document's stroke-group indices are
exactly the contiguous 1..N (with gapped indices, fewer groups remain
visible; see the counterexample). -/
theorem c4_selectRange_visibility :
    (∀ (s e : Int) (a : List (String × String)) (cs : List XNode),
      strokeGroupStatus (applyRangeCore s e (XNode.elem "svg" a cs)) =
        (strokeIdxList (XNode.elem "svg" a cs)).map
          (fun n => (n, !(inRangeB (min s e) (max s e) n)))) ∧
    (∀ (svgText : String) (a : List (String × String)) (cs : List XNode) (s e : Int),
      parseXml svgText = some (XNode.elem "svg" a cs) →
      applyRangeBaked svgText s e =
        serializeXml (applyRangeCore s e (XNode.elem "svg" a cs))) ∧
    (∀ (s e : Int) (a : List (String × String)) (cs : List XNode),
      ((strokeGroupStatus (applyRangeCore s e (XNode.elem "svg" a cs))).filter
          (fun p => !p.2)).length =
        ((strokeIdxList (XNode.elem "svg" a cs)).filter
          (inRangeB (min s e) (max s e))).length) ∧
    (∀ (N : Nat) (s e : Int) (a : List (String × String)) (cs : List XNode),
      strokeIdxList (XNode.elem "svg" a cs) =
        (List.range' 1 N).map (fun (n : Nat) => some (n : Int)) →
      1 ≤ s → s ≤ e → e ≤ (N : Int) →
      ((strokeGroupStatus (applyRangeCore s e (XNode.elem "svg" a cs))).filter
          (fun p => !p.2)).length = (e - s + 1).toNat) := by
  refine ⟨strokeGroupStatus_applyRangeCore, ?_, visible_count_applyRangeCore, ?_⟩
  · intro svgText a cs s e hparse
    simp [applyRangeBaked, hparse, containsElem_root_svg]
  · intro N s e a cs hlist hs1 hse heN
    have hmin : min s e = s := min_eq_left hse
    have hmax : max s e = e := max_eq_right hse
    rw [visible_count_applyRangeCore, hmin, hmax, hlist, List.filter_map, List.length_map]
    have hfun : ((inRangeB s e) ∘ (fun (n : Nat) => some (n : Int))) =
        (fun n => decide (s.toNat ≤ n) && decide (n ≤ e.toNat)) := by
      funext n
      simp only [Function.comp, inRangeB]
      congr 1
      · exact decide_eq_decide.mpr (by omega)
      · exact decide_eq_decide.mpr (by omega)
    rw [hfun, filter_range'_length N s.toNat e.toNat (by omega) (by omega) (by omega)]
    omega

set_option maxRecDepth 400000 in
/-- C4 counterexample: bake of `srcGapped` yields count 3 with emitted
stroke indices 1 and 3 (gapped); for the valid bounds s = 1, e = 2 the
range pass leaves only one group visible, not e − s + 1 = 2. -/
theorem c4_selectRange_visibility_counterexample :
    (bakeStrokes srcGapped).count = 3 ∧
    visibleStrokeGroupCount (applyRangeBaked (bakeStrokes srcGapped).svg 1 2) = 1 ∧
    (1 : Nat) ≠ 2 - 1 + 1 :=
  ⟨rfl, rfl, by decide⟩

/-- C4 witness: a document with contiguous stroke indices 1..2; for
s = 1, e = 2 the range pass leaves both groups visible. -/
theorem c4_selectRange_visibility_witness :
    ((strokeGroupStatus (applyRangeCore 1 2 (XNode.elem "svg" []
        [XNode.elem "g" [("data-stroke", "1")] [],
         XNode.elem "g" [("data-stroke", "2")] []]))).filter
        (fun p => !p.2)).length = ((2 : Int) - 1 + 1).toNat := by
  exact c4_selectRange_visibility.2.2.2 2 1 2 []
    [XNode.elem "g" [("data-stroke", "1")] [],
     XNode.elem "g" [("data-stroke", "2")] []]
    (by decide) (by decide) (by decide) (by decide)

/-! ### Sanity checks of the embedded parser, serializer and id scanners -/

theorem parseXml_selfClosing : parseXml "<svg/>" = some (XNode.elem "svg" [] []) := rfl

theorem parseXml_nested : parseXml "<svg a=\"1\"><g id=\"x-s1\"/>t</svg>" =
    some (XNode.elem "svg" [("a", "1")] [XNode.elem "g" [("id", "x-s1")] [], XNode.text "t"]) := rfl

theorem parseXml_mismatched : parseXml "<a><b></a>" = none := rfl

theorem parseXml_notXml : parseXml "not xml" = none := rfl

theorem serializeXml_sample :
    serializeXml (XNode.elem "svg" [("a", "1")] [XNode.elem "g" [] [], XNode.text "t"]) =
      "<svg a=\"1\"><g/>t</svg>" := rfl

theorem matchStrokeSuffix_hit : matchStrokeSuffix "kvg:06c38-s12" = some "12" := rfl

theorem matchStrokeSuffix_empty : matchStrokeSuffix "kvg:06c38-s" = none := rfl

theorem matchStrokeSuffixNat_hit : matchStrokeSuffixNat "kvg:06c38-s12" = some 12 := rfl

theorem matchStrokeSuffixBroken_miss : matchStrokeSuffixBroken "kvg:06c38-s12" = none := rfl

theorem parseIntJs_num : parseIntJs "12" = some 12 := rfl

theorem parseIntJs_nan : parseIntJs "\\dd" = none := rfl
